import Mathlib

/-!
Shallow embedding of the Myelin ASC pricer core
(`myelin/pricers/asc/client.py` and `myelin/pricers/asc/data_loader.py`).

Conventions of the embedding:
* Python `float` / `Decimal` amounts are embedded as `ℚ` with exact
  arithmetic; `Decimal(str(x))` round-trips the decimal value, so the
  float→Decimal boundary is the identity here.
* `Decimal.quantize(Decimal("0.01"))` under the default context
  (`ROUND_HALF_EVEN`) is `quantizeCents`.
* Python dicts are embedded as insertion-ordered association lists
  (`alistGet` is `dict.get`).
* In-place mutation of `AscLineOutput` objects is embedded as pure
  substitution: each pipeline stage maps the list of line outputs to a new
  list, element for element.
-/

set_option maxRecDepth 100000

namespace Asc

/-- Calendar date as compared by Python `datetime` (lexicographic on
year, month, day; the time-of-day components are always zero in this code). -/
structure PyDate where
  year : ℕ
  month : ℕ
  day : ℕ
deriving DecidableEq, Repr

def PyDate.lt (a b : PyDate) : Prop :=
  a.year < b.year ∨ (a.year = b.year ∧
    (a.month < b.month ∨ (a.month = b.month ∧ a.day < b.day)))

instance : LT PyDate := ⟨PyDate.lt⟩

instance (a b : PyDate) : Decidable (a < b) :=
  inferInstanceAs (Decidable (a.year < b.year ∨ (a.year = b.year ∧
    (a.month < b.month ∨ (a.month = b.month ∧ a.day < b.day)))))

def PyDate.le (a b : PyDate) : Prop := a < b ∨ a = b

instance : LE PyDate := ⟨PyDate.le⟩

instance (a b : PyDate) : Decidable (a ≤ b) :=
  inferInstanceAs (Decidable (a < b ∨ a = b))

/-- Integer nearest to `x`, ties to even: the rounding used by Python
`Decimal.quantize` under the default `ROUND_HALF_EVEN` context. -/
def roundHalfEven (x : ℚ) : ℤ :=
  let f := Int.floor x
  let r := x - f
  if r < 1/2 then f
  else if 1/2 < r then f + 1
  else if f % 2 = 0 then f else f + 1

/-- Python `Decimal.quantize(Decimal("0.01"))`: round to whole cents. -/
def quantizeCents (x : ℚ) : ℚ := (roundHalfEven (x * 100) : ℚ) / 100

/-- Python `dict.get(k)` over an insertion-ordered association list. -/
def alistGet {κ α : Type} [DecidableEq κ] (l : List (κ × α)) (k : κ) : Option α :=
  (l.find? fun p => decide (p.1 = k)).map Prod.snd

/-!
## Reference data store (`myelin/pricers/asc/data_loader.py`)

Only quarter selection is modelled here: which quarter directory `get_data`
serves, or that it raises `FileNotFoundError`.  Bundle parsing/caching is not
needed by any claim about the loader.
-/

/-- Quarter-start date for a target date: month mapped into {1, 4, 7, 10},
day 1 (`AscReferenceData._find_quarter_directory`, lines 103-106). -/
def quarterStart (d : PyDate) : PyDate :=
  ⟨d.year, ((d.month - 1) / 3) * 3 + 1, 1⟩

/-- Directory index built by `preload_all_data`: (quarter-start date, path)
pairs sorted descending by date.  The slow filesystem path of
`_find_quarter_directory` scans the same pairs and applies the same rule. -/
abbrev QuarterIndex := List (PyDate × String)

/-- `AscReferenceData._find_quarter_directory` (data_loader.py lines 98-158):
exact quarter-start match first; otherwise the latest available quarter, but
only when the requested date is strictly after that quarter's start. -/
def findQuarterDirectory (quarters : QuarterIndex) (date : PyDate) : Option String :=
  let target := quarterStart date
  match quarters.find? (fun q => decide (q.1 = target)) with
  | some q => some q.2
  | none =>
    match quarters with
    | [] => none
    | (latestDate, latestPath) :: _ =>
      if latestDate < date then some latestPath else none

/-- `AscReferenceData.get_data` (data_loader.py lines 79-96): `none` models
the raised `FileNotFoundError` ("no ASC data found for date or prior
quarters"); `some path` means the bundle loaded from and cached for `path`
is returned. -/
def getData (quarters : QuarterIndex) (date : PyDate) : Option String :=
  findQuarterDirectory quarters date

theorem lt_irrefl_pydate (d : PyDate) : ¬ d < d := by
  intro h
  have h' : PyDate.lt d d := h
  unfold PyDate.lt at h'
  rcases h' with h' | ⟨_, h' | ⟨_, h'⟩⟩ <;> exact lt_irrefl _ h'

/-- Strictly-descending-by-date indices relate equal dates to equal entries. -/
theorem eq_of_mem_pairwise_desc {l : QuarterIndex} {a b : PyDate × String}
    (hp : l.Pairwise (fun x y => y.1 < x.1)) (ha : a ∈ l) (hb : b ∈ l)
    (hdate : a.1 = b.1) : a = b := by
  induction l with
  | nil => cases ha
  | cons x xs ih =>
    rcases List.pairwise_cons.mp hp with ⟨hx, hxs⟩
    rcases List.mem_cons.mp ha with rfl | ha'
    · rcases List.mem_cons.mp hb with rfl | hb'
      · rfl
      · have hlt := hx b hb'
        rw [hdate] at hlt
        exact absurd hlt (lt_irrefl_pydate _)
    · rcases List.mem_cons.mp hb with rfl | hb'
      · have hlt := hx a ha'
        rw [hdate] at hlt
        exact absurd hlt (lt_irrefl_pydate _)
      · exact ih hxs ha' hb'

/-- Quarter starts never lie after their own date (for well-formed dates). -/
theorem quarterStart_le (d : PyDate) (hm : 1 ≤ d.month) (hd : 1 ≤ d.day) :
    quarterStart d ≤ d := by
  have hq : ((d.month - 1) / 3) * 3 + 1 ≤ d.month := by omega
  show PyDate.le (quarterStart d) d
  unfold PyDate.le
  rcases Nat.lt_or_ge (((d.month - 1) / 3) * 3 + 1) d.month with h | h
  · left
    show PyDate.lt (quarterStart d) d
    unfold PyDate.lt quarterStart
    exact Or.inr ⟨rfl, Or.inl h⟩
  · have heq : ((d.month - 1) / 3) * 3 + 1 = d.month := le_antisymm hq h
    rcases Nat.lt_or_ge 1 d.day with h2 | h2
    · left
      show PyDate.lt (quarterStart d) d
      unfold PyDate.lt quarterStart
      exact Or.inr ⟨rfl, Or.inr ⟨heq, h2⟩⟩
    · right
      have hday : d.day = 1 := le_antisymm h2 hd
      cases d with
      | mk y m dd =>
        unfold quarterStart
        simp only at heq hday
        rw [heq, hday]

/-- C2, counterexample: a store holding quarters 2024-01-01 and 2024-10-01,
queried for 2024-05-15.  The exact quarter (2024-04-01) is missing, the
latest quarter's start (2024-10-01) is not strictly before the date, so
`get_data` raises `FileNotFoundError` (modelled as `none`) — even though the
quarter 2024-01-01 exists at/before the requested date.  This refutes "fails
... exactly when no quarter at or before the requested date exists anywhere
in the store". -/
theorem claim2_counterexample :
    getData [(⟨2024, 10, 1⟩, "B"), (⟨2024, 1, 1⟩, "A")] ⟨2024, 5, 15⟩ = none ∧
    ((⟨2024, 1, 1⟩ : PyDate) ≤ ⟨2024, 5, 15⟩ ∧
      (⟨2024, 1, 1⟩, "A") ∈ [((⟨2024, 10, 1⟩ : PyDate), "B"), (⟨2024, 1, 1⟩, "A")]) := by
  refine ⟨rfl, by decide, by decide⟩

/-- Unfolding equation for `getData`, convenient for case analysis. -/
theorem getData_unfold (quarters : QuarterIndex) (date : PyDate) :
    getData quarters date =
      match quarters.find? (fun q => decide (q.1 = quarterStart date)) with
      | some q => some q.2
      | none =>
        match quarters with
        | [] => none
        | (latestDate, latestPath) :: _ =>
          if latestDate < date then some latestPath else none := rfl

/-- C2 (amended): over a descending-sorted quarter index, `get_data` (1)
serves the exact quarter-start directory of the date when present; (2) when
absent, serves the latest quarter's directory iff the requested date is
strictly after that quarter's start; (3) fails with data-not-found exactly
when there is no exact match and the date is not strictly after the latest
quarter's start — which can happen even though some earlier quarter exists;
and (4) never serves a quarter whose start is after the requested date. -/
theorem claim2_quarter_resolution (quarters : QuarterIndex) (date : PyDate)
    (hsorted : quarters.Pairwise (fun a b => b.1 < a.1))
    (hm : 1 ≤ date.month) (hd : 1 ≤ date.day) :
    (∀ q ∈ quarters, q.1 = quarterStart date → getData quarters date = some q.2) ∧
    ((∀ q ∈ quarters, q.1 ≠ quarterStart date) →
      ∀ l ∈ quarters.head?,
        getData quarters date = if l.1 < date then some l.2 else none) ∧
    (getData quarters date = none ↔
      ((∀ q ∈ quarters, q.1 ≠ quarterStart date) ∧
        ∀ l ∈ quarters.head?, ¬ l.1 < date)) ∧
    (∀ p, getData quarters date = some p →
      ∃ q ∈ quarters, q.2 = p ∧ q.1 ≤ date) := by
  have hfind :
      ∀ q', quarters.find? (fun q => decide (q.1 = quarterStart date)) = some q' →
        q' ∈ quarters ∧ q'.1 = quarterStart date := by
    intro q' h
    have hp := List.find?_some h
    exact ⟨List.mem_of_find?_eq_some h, of_decide_eq_true hp⟩
  have h1 : ∀ q ∈ quarters, q.1 = quarterStart date →
      getData quarters date = some q.2 := by
    intro q hq hqdate
    rw [getData_unfold]
    cases hF : quarters.find? (fun q => decide (q.1 = quarterStart date)) with
    | none =>
      have := List.find?_eq_none.mp hF q hq
      simp [hqdate] at this
    | some q' =>
      obtain ⟨hq'm, hq'd⟩ := hfind q' hF
      have : q' = q := eq_of_mem_pairwise_desc hsorted hq'm hq (hq'd.trans hqdate.symm)
      simp [this]
  have h2 : (∀ q ∈ quarters, q.1 ≠ quarterStart date) →
      ∀ l ∈ quarters.head?,
        getData quarters date = if l.1 < date then some l.2 else none := by
    intro hnone l hl
    have hF : quarters.find? (fun q => decide (q.1 = quarterStart date)) = none := by
      cases hF : quarters.find? (fun q => decide (q.1 = quarterStart date)) with
      | none => rfl
      | some q' =>
        obtain ⟨hq'm, hq'd⟩ := hfind q' hF
        exact absurd hq'd (hnone q' hq'm)
    cases quarters with
    | nil => simp at hl
    | cons x xs =>
      have hxl : x = l := by simpa [Option.mem_def] using hl
      subst hxl
      obtain ⟨xd, xp⟩ := x
      rw [getData_unfold, hF]
  refine ⟨h1, h2, ?_, ?_⟩
  · constructor
    · intro hnone
      have hnoexact : ∀ q ∈ quarters, q.1 ≠ quarterStart date := by
        intro q hq hqdate
        rw [h1 q hq hqdate] at hnone
        exact Option.noConfusion hnone
      refine ⟨hnoexact, ?_⟩
      intro l hl hldate
      have hser := h2 hnoexact l hl
      rw [hser, if_pos hldate] at hnone
      exact Option.noConfusion hnone
    · rintro ⟨hnoexact, hnofuture⟩
      cases hq : quarters with
      | nil => subst hq; rfl
      | cons x xs =>
        subst hq
        have := h2 hnoexact x (by simp)
        rw [this, if_neg (hnofuture x (by simp))]
  · intro p hp
    rw [getData_unfold] at hp
    cases hF : quarters.find? (fun q => decide (q.1 = quarterStart date)) with
    | some q' =>
      rw [hF] at hp
      obtain ⟨hq'm, hq'd⟩ := hfind q' hF
      refine ⟨q', hq'm, Option.some.inj hp, ?_⟩
      rw [hq'd]
      exact quarterStart_le date hm hd
    | none =>
      rw [hF] at hp
      cases quarters with
      | nil => exact Option.noConfusion hp
      | cons x xs =>
        obtain ⟨xd, xp⟩ := x
        have hp' : (if xd < date then some xp else none) = some p := hp
        by_cases hlt : xd < date
        · rw [if_pos hlt] at hp'
          exact ⟨(xd, xp), by simp, Option.some.inj hp', Or.inl hlt⟩
        · rw [if_neg hlt] at hp'
          exact Option.noConfusion hp'

/-- Witness for `claim2_quarter_resolution` at a concrete store: a single
quarter 2025-01-01 queried at 2025-02-10 is served exactly. -/
theorem claim2_quarter_resolution_witness :
    getData [(⟨2025, 1, 1⟩, "P")] ⟨2025, 2, 10⟩ = some "P" := by
  exact (claim2_quarter_resolution [(⟨2025, 1, 1⟩, "P")] ⟨2025, 2, 10⟩
    (by decide) (by decide) (by decide)).1 (⟨2025, 1, 1⟩, "P") (by decide) (by decide)

/-!
## Data model of the ASC client (`myelin/pricers/asc/client.py` and the
reference-data record types of `data_loader.py`)
-/

/-- Per-HCPCS rate entry (`RateInfo` TypedDict, data_loader.py lines 14-20). -/
structure RateInfo where
  rate : ℚ
  indicator : String
  subject_to_discount : Bool
  addendum : String
deriving DecidableEq, Repr

/-- Code pair entry (`CodePairEntry` TypedDict, data_loader.py lines 23-30).
The Python entry stores `effective_date` / `end_date` as `YYYYMMDD` strings
parsed on use; the embedding stores the parsed dates (`none` = empty string).
An entry whose date strings fail to parse is skipped by the lookup, which is
observationally the same as the entry being absent. -/
structure CodePairEntry where
  device_modifier : Option String
  procedure_modifier : Option String
  percent_multiplier : ℚ
  effective_date : Option PyDate
  end_date : Option PyDate
deriving DecidableEq, Repr

/-- Reference bundle (`AscRefData` TypedDict, data_loader.py lines 33-40);
the `_cache_version` tag plays no role in pricing and is omitted. -/
structure AscRefData where
  rates : List (String × RateInfo)
  device_offsets : List (String × ℚ)
  wage_indices : List (String × ℚ)
  code_pairs : List ((String × String) × List CodePairEntry)
deriving DecidableEq, Repr

/-- Modelled from the spec: `ClaimLine` of spec §3 (`myelin/input/claim.py`
is not under `src/`), restricted to the fields the ASC pricer reads.
`units` is a Python `int` (may be 0 or negative; every consumer guards with
`max(1, ·)` / truthiness), `charges` a non-negative amount, `service_date`
optional. -/
structure LineItem where
  hcpcs : String
  units : Int
  modifiers : List String
  charges : ℚ
  service_date : Option PyDate
deriving DecidableEq, Repr

/-- Modelled from the spec: the claim object of spec §6 ("a claim object
exposing: thru-date, a free-form additional-data map, and an ordered list of
claim lines"); `myelin/input/claim.py` is not under `src/`. -/
structure Claim where
  thru_date : Option PyDate
  additional_data : List (String × String)
  lines : List LineItem
deriving DecidableEq, Repr

/-- Modelled from the spec: `OPSFProvider` (spec §6 provider-master lookup;
`myelin/pricers/opsf.py` is not under `src/`), restricted to the two CBSA
fields read by `AscClient.process`. -/
structure OPSFProvider where
  cbsa_wage_index_location : Option String
  cbsa_actual_geographic_location : Option String
deriving DecidableEq, Repr

/-- Structured error result (`ReturnCode`, `myelin/helpers/utils.py`). -/
structure ReturnCode where
  code : String
  description : String
  explanation : String
deriving DecidableEq, Repr

/-- MUE rule (`AscMueLimit`, client.py lines 44-47). -/
structure AscMueLimit where
  code : String := ""
  mue_limit : Int := 0
  up_to_limit : Bool := false
deriving DecidableEq, Repr

/-- Per-line pricing output (`AscLineOutput`, client.py lines 50-70), with
the same pydantic defaults. -/
structure AscLineOutput where
  line_number : ℕ := 0
  hcpcs : String := ""
  payment_indicator : String := ""
  payment_rate : ℚ := 0
  wage_index : ℚ := 0
  adjusted_rate : ℚ := 0
  units : Int := 1
  device_offset_amount : ℚ := 0
  device_credit : Bool := false
  code_pair_offset : ℚ := 0
  code_pair_device : String := ""
  details : String := ""
  status : String := ""
  status_reason : String := ""
  subject_to_discount : Bool := false
  discount_applied : Bool := false
  line_payment : ℚ := 0
  line_copayment : ℚ := 0
  line_total : ℚ := 0
deriving DecidableEq, Repr

instance : Inhabited AscLineOutput := ⟨{}⟩

/-- Claim-level output (`AscOutput`, client.py lines 73-84). -/
structure AscOutput where
  cbsa : String := ""
  wage_index : ℚ := 0
  lines : List AscLineOutput := []
  total_payment : ℚ := 0
  total_copayment : ℚ := 0
  total : ℚ := 0
  error : Option ReturnCode := none
  message : Option String := none
deriving DecidableEq, Repr

/-- Payment indicators denied outright (client.py line 17). -/
def DENY_INDICATORS : List String := ["C5", "M6", "U5", "X5", "E5", "Y5", "K5"]

/-- Payment indicators packaged / no separate payment (client.py line 19). -/
def DENY_PACKAGED_INDICATORS : List String := ["L1", "NI", "S1", "D1"]

/-- Payment indicators returned as unprocessable (client.py line 21). -/
def UNPROCESSABLE_INDICATORS : List String := ["D5", "B5"]

/-- Payment indicators exempt from wage adjustment (client.py line 34). -/
def WAGE_EXEMPT_INDICATORS : List String := ["H2", "J7", "K2", "K7", "F4", "L6"]

/-- Python `f"{x:.2f}"` on the embedded amount (used only inside the
free-text `details` field). -/
def fmt2 (q : ℚ) : String :=
  let n := roundHalfEven (q * 100)
  let a := n.natAbs
  (if n < 0 then "-" else "") ++ toString (a / 100) ++ "." ++
    (if a % 100 < 10 then "0" else "") ++ toString (a % 100)

/-- Date-window validity of one code pair entry for the claim date
(`AscClient._get_code_pair_offset`, client.py lines 123-142: entries whose
window excludes the date — or whose dates fail to parse — are skipped). -/
def codePairEntryValid (claim_date : PyDate) (e : CodePairEntry) : Bool :=
  match e.effective_date, e.end_date with
  | some eff, some last => decide (eff ≤ claim_date) && decide (claim_date ≤ last)
  | some eff, none => !decide (claim_date < eff)
  | none, some last => !decide (last < claim_date)
  | none, none => true

/-- `AscClient._get_code_pair_offset` (client.py lines 94-152): the percent
multiplier of the first entry for (device, procedure) valid on the claim
date, or `(0, "")`. -/
def getCodePairOffset (procedure_hcpcs device_hcpcs : String)
    (code_pairs : List ((String × String) × List CodePairEntry))
    (claim_date : PyDate) : ℚ × String :=
  let entries := (alistGet code_pairs (device_hcpcs, procedure_hcpcs)).getD []
  match entries.find? (codePairEntryValid claim_date) with
  | some e => (e.percent_multiplier, device_hcpcs)
  | none => (0, "")

/-- Device scan of the code-pair section of `_process_line` (client.py lines
668-685): first device, in dict insertion order, with remaining units > 0 and
a positive multiplier for this procedure. -/
def scanDevices (procedure_hcpcs : String)
    (code_pairs : List ((String × String) × List CodePairEntry))
    (claim_date : PyDate) : List (String × Int) → Option (String × ℚ)
  | [] => none
  | (device_code, u) :: rest =>
    if u ≤ 0 then scanDevices procedure_hcpcs code_pairs claim_date rest
    else
      let m := (getCodePairOffset procedure_hcpcs device_code code_pairs claim_date).1
      if 0 < m then some (device_code, m)
      else scanDevices procedure_hcpcs code_pairs claim_date rest

/-- Decrement of `device_available_units[device_code]` (client.py line 684). -/
def decrDevice (dev : List (String × Int)) (device_code : String) :
    List (String × Int) :=
  dev.map fun p => if p.1 = device_code then (p.1, p.2 - 1) else p

/-- `AscClient._process_line` (client.py lines 524-723).  Returns the line
output together with the updated `device_available_units` (the Python
function mutates that dict in place). -/
def processLine (ref : AscRefData) (wage_index : ℚ) (claim_date : PyDate)
    (dev : List (String × Int)) (idx : ℕ) (line : LineItem) :
    AscLineOutput × List (String × Int) :=
  let base : AscLineOutput := { line_number := idx + 1, hcpcs := line.hcpcs, units := line.units }
  match alistGet ref.rates line.hcpcs with
  | none => ({ base with details := "Code not found in ASC Fee Schedule" }, dev)
  | some info =>
    let lo := { base with
      payment_indicator := info.indicator
      payment_rate := info.rate
      wage_index := wage_index
      subject_to_discount := info.subject_to_discount }
    if info.indicator ∈ DENY_INDICATORS then
      ({ lo with
          status := "denied"
          status_reason := "Indicator " ++ info.indicator ++ ": denied per CMS §60.3"
          details := "Denied (Indicator " ++ info.indicator ++ ")"
          adjusted_rate := 0 }, dev)
    else if info.indicator ∈ DENY_PACKAGED_INDICATORS then
      ({ lo with
          status := "packaged"
          status_reason := "Indicator " ++ info.indicator ++
            ": packaged, no separate payment per CMS §60.3"
          details := "Packaged/No Separate Payment (Indicator " ++ info.indicator ++ ")"
          adjusted_rate := 0 }, dev)
    else if info.indicator ∈ UNPROCESSABLE_INDICATORS then
      ({ lo with
          status := "unprocessable"
          status_reason := "Indicator " ++ info.indicator ++ ": unprocessable per CMS §60.3"
          details := "Unprocessable (Indicator " ++ info.indicator ++ ")"
          adjusted_rate := 0 }, dev)
    else if info.rate = 0 then
      ({ lo with status := "packaged", details := "Packaged or No Payment" }, dev)
    else
      let lo := { lo with status := "payable" }
      let mods := line.modifiers
      let is_terminated_pre := mods.contains "73"
      let is_terminated_post := mods.contains "74"
      let is_reduced := mods.contains "52"
      let has_fb := mods.contains "FB"
      let has_fc := mods.contains "FC"
      -- Device offset: subtracted from the base rate BEFORE wage adjustment
      -- (client.py lines 611-646).
      let offsetStage : ℚ × ℚ × Bool × String :=
        if is_terminated_pre then
          let dev_offset_val := (alistGet ref.device_offsets line.hcpcs).getD 0
          let d1 :=
            if 0 < dev_offset_val then
              " (Mod 73: Device Offset " ++ fmt2 dev_offset_val ++ " Removed from Base)"
            else ""
          let d2 := if has_fb || has_fc then " (Mod 73 present, FB/FC Ignored)" else ""
          if 0 < dev_offset_val then
            (max 0 (info.rate - dev_offset_val), dev_offset_val, false, d1 ++ d2)
          else (info.rate, 0, false, d1 ++ d2)
        else if has_fb || has_fc then
          match alistGet ref.device_offsets line.hcpcs with
          | some dev_offset =>
            if dev_offset ≠ 0 then
              if has_fb then
                (max 0 (info.rate - dev_offset), dev_offset, true,
                  " (Mod FB: Full Device Offset -" ++ fmt2 dev_offset ++ ")")
              else
                (max 0 (info.rate - dev_offset * (0.50 : ℚ)), dev_offset * (0.50 : ℚ), true,
                  " (Mod FC: Partial Device Offset -" ++ fmt2 (dev_offset * (0.50 : ℚ)) ++ ")")
            else (info.rate, 0, false, "")
          | none => (info.rate, 0, false, "")
        else (info.rate, 0, false, "")
      let reduced_base_rate := offsetStage.1
      let offset_amount := offsetStage.2.1
      let device_credit := offsetStage.2.2.1
      let det1 := offsetStage.2.2.2
      -- Geographic adjustment (client.py lines 648-662).
      let wage_exempt := info.indicator ∈ WAGE_EXEMPT_INDICATORS
      let adjusted0 : ℚ :=
        if wage_exempt then reduced_base_rate
        else reduced_base_rate * (0.5 : ℚ) * wage_index + reduced_base_rate * (0.5 : ℚ)
      let det2 :=
        if wage_exempt then " (No Wage Adj: Indicator " ++ info.indicator ++ ")" else ""
      -- Code pair / pass-through device logic (client.py lines 664-685).
      let line_hcpcs := line.hcpcs.toUpper.trim
      let is_device_line := line_hcpcs.startsWith "C"
      let cpStage : ℚ × ℚ × String × String × List (String × Int) :=
        if is_device_line = false ∧ dev ≠ [] ∧ ref.code_pairs ≠ [] then
          match scanDevices line.hcpcs ref.code_pairs claim_date dev with
          | some (device_code, m) =>
            let offset := adjusted0 * m
            (max 0 (adjusted0 - offset), offset, device_code,
              " (CodePair:" ++ device_code ++ " -" ++ fmt2 offset ++ ")",
              decrDevice dev device_code)
          | none => (adjusted0, 0, "", "", dev)
        else (adjusted0, 0, "", "", dev)
      let adjusted1 := cpStage.1
      let cp_offset := cpStage.2.1
      let cp_device := cpStage.2.2.1
      let det3 := cpStage.2.2.2.1
      let dev' := cpStage.2.2.2.2
      -- Modifier payment reductions and lower-of capping
      -- (client.py lines 687-723).
      if is_terminated_pre then
        let adjusted2 := adjusted1 * (0.5 : ℚ)
        let det4 := " (Mod 73: 50% Reduct)"
        let capStage : ℚ × String :=
          if 0 < line.charges ∧ line.charges < adjusted2 then
            (line.charges, " (Lower-of: Charges " ++ fmt2 line.charges ++ ")")
          else (adjusted2, "")
        ({ lo with
            adjusted_rate := capStage.1
            subject_to_discount := false
            device_credit := false
            device_offset_amount := offset_amount
            code_pair_offset := cp_offset
            code_pair_device := cp_device
            details := det1 ++ det2 ++ det3 ++ det4 ++ capStage.2 }, dev')
      else
        let modStage : ℚ × String × Bool :=
          if is_reduced then (adjusted1 * (0.5 : ℚ), " (Mod 52: 50% Reduct)", false)
          else if is_terminated_post then (adjusted1, " (Mod 74: Full Pay)", lo.subject_to_discount)
          else (adjusted1, "", lo.subject_to_discount)
        let adjusted2 := modStage.1
        let det4 := modStage.2.1
        let std := modStage.2.2
        let capStage : ℚ × String :=
          if 0 < line.charges ∧ line.charges < adjusted2 then
            (line.charges, " (Lower-of: Charges " ++ fmt2 line.charges ++ ")")
          else (adjusted2, "")
        ({ lo with
            adjusted_rate := capStage.1
            subject_to_discount := std
            device_credit := device_credit
            device_offset_amount := offset_amount
            code_pair_offset := cp_offset
            code_pair_device := cp_device
            details := det1 ++ det2 ++ det3 ++ det4 ++ capStage.2 }, dev')

/-- Placeholder `LineItem`.  `line_map[...]` lookups in client.py would raise
`KeyError` for an out-of-range line number; within `process` line numbers are
always `index + 1`, so the placeholder is never reached there. -/
def defaultLineItem : LineItem :=
  { hcpcs := "", units := 1, modifiers := [], charges := 0, service_date := none }

/-- `line_map[line_number]` (client.py lines 209-211 and 426): the claim line
whose 1-based number is `ln`. -/
def lineAt (claim_lines : List LineItem) (ln : ℕ) : LineItem :=
  (claim_lines[ln - 1]?).getD defaultLineItem

/-!
## MUE enforcement (`AscClient._mue_check`, client.py lines 175-276)

The Python method mutates the grouped `AscLineOutput` objects in place.  The
embedding maps over the list: for each currently-payable line with an MUE
rule, it recomputes that line's (HCPCS, service-date) group, applies the
group edit, and takes the edited copy of the line.  Groups are disjoint and
line numbers are distinct inside `process`, so this substitution computes the
same final list as the in-place mutation.
-/

/-- Billed units of the claim line numbered `ln`:
`max(1, int(line_map[n].units or 1))` (client.py lines 226 and 250). -/
def mueBilled (claim_lines : List LineItem) (ln : ℕ) : Int :=
  max 1 (lineAt claim_lines ln).units

/-- Complete denial of one line by the MUE stage (client.py lines 236-245 and
252-262); `tail` is `" (all units denied)"` for the line edit and
`" (excess denied)"` for the date-of-service edit. -/
def mueDeny (total_units mue_limit : Int) (tail : String)
    (g : AscLineOutput) : AscLineOutput :=
  { g with
      status := "denied"
      status_reason := "MUE exceeded: " ++ toString total_units ++
        " units billed, limit is " ++ toString mue_limit ++ tail
      adjusted_rate := 0
      units := 0
      line_payment := 0
      line_copayment := 0
      line_total := 0 }

/-- Partial cap of one line at the remaining budget (client.py lines 263-273). -/
def mueCap (billed remaining mue_limit : Int) (g : AscLineOutput) : AscLineOutput :=
  { g with
      units := remaining
      status_reason := "MUE partial: " ++ toString billed ++ " units billed, " ++
        toString remaining ++ " allowed (limit " ++ toString mue_limit ++ ")" }

/-- Date-of-service edit: greedy consumption of the remaining budget in claim
order (client.py lines 246-276). -/
def mueDosEdit (claim_lines : List LineItem) (total_units mue_limit : Int) :
    Int → List AscLineOutput → List AscLineOutput
  | _, [] => []
  | remaining, g :: rest =>
    if remaining ≤ 0 then
      mueDeny total_units mue_limit " (excess denied)" g ::
        mueDosEdit claim_lines total_units mue_limit remaining rest
    else if remaining < mueBilled claim_lines g.line_number then
      mueCap (mueBilled claim_lines g.line_number) remaining mue_limit g ::
        mueDosEdit claim_lines total_units mue_limit 0 rest
    else
      g :: mueDosEdit claim_lines total_units mue_limit
        (remaining - mueBilled claim_lines g.line_number) rest

/-- Billed units summed across a group of output lines (client.py
lines 224-227). -/
def mueGroupTotal (claim_lines : List LineItem)
    (members : List AscLineOutput) : Int :=
  (members.map fun g => mueBilled claim_lines g.line_number).sum

/-- Edit applied to one (HCPCS, service-date) group (client.py lines 222-276). -/
def mueGroupEdit (claim_lines : List LineItem) (mue : AscMueLimit)
    (members : List AscLineOutput) : List AscLineOutput :=
  if mueGroupTotal claim_lines members ≤ mue.mue_limit then members
  else if mue.up_to_limit = false then
    members.map
      (mueDeny (mueGroupTotal claim_lines members) mue.mue_limit " (all units denied)")
  else
    mueDosEdit claim_lines (mueGroupTotal claim_lines members) mue.mue_limit
      mue.mue_limit members

/-- Members of the (HCPCS, service-date) group of `g`, in claim order
(client.py lines 216-220; only currently-payable lines are grouped). -/
def mueMembers (claim_lines : List LineItem) (calculated : List AscLineOutput)
    (g : AscLineOutput) : List AscLineOutput :=
  calculated.filter fun h =>
    decide (h.status = "payable" ∧ h.hcpcs = g.hcpcs ∧
      (lineAt claim_lines h.line_number).service_date =
        (lineAt claim_lines g.line_number).service_date)

/-- New value of one output line under the MUE stage. -/
def mueLineStep (claim_lines : List LineItem) (calculated : List AscLineOutput)
    (mues : List (String × AscMueLimit)) (g : AscLineOutput) : AscLineOutput :=
  match alistGet mues g.hcpcs with
  | some mue =>
    if g.status = "payable" then
      ((mueGroupEdit claim_lines mue (mueMembers claim_lines calculated g)).find?
        fun h => decide (h.line_number = g.line_number)).getD g
    else g
  | none => g

/-- `AscClient._mue_check` (client.py lines 175-276); no-op when `mues` is
empty (Python `if not mues: return`). -/
def mueCheck (claim_lines : List LineItem) (calculated : List AscLineOutput)
    (mues : List (String × AscMueLimit)) : List AscLineOutput :=
  if mues = [] then calculated
  else calculated.map (mueLineStep claim_lines calculated mues)

/-!
## Ancillary gate and final summation (`AscClient.process`, client.py
lines 394-520)
-/

/-- Addendum of a line's rate entry with the `"AA"` default:
`rates_lookup.get(hcpcs, {}).get("addendum", "AA")` (client.py line 400). -/
def addendumOrAA (rates : List (String × RateInfo)) (hcpcs : String) : String :=
  match alistGet rates hcpcs with
  | some info => info.addendum
  | none => "AA"

/-- Existence of a currently-payable surgical line (client.py lines 398-402). -/
def hasPayableSurgical (rates : List (String × RateInfo))
    (lines : List AscLineOutput) : Bool :=
  lines.any fun g =>
    decide (g.status = "payable" ∧ addendumOrAA rates g.hcpcs = "AA")

/-- Downgrade of one ancillary line by the gate (client.py lines 409-413). -/
def gateDowngrade (g : AscLineOutput) : AscLineOutput :=
  { g with
      status := "unprocessable"
      status_reason := "No related surgical procedure on claim (CMS §60.2)"
      adjusted_rate := 0 }

/-- Ancillary gate, CMS §60.2 (client.py lines 394-413): if no currently-
payable surgical (addendum "AA", default "AA" when unknown) line exists,
every currently-payable addendum-"BB" line becomes unprocessable with its
adjusted rate zeroed. -/
def ancillaryGate (rates : List (String × RateInfo))
    (lines : List AscLineOutput) : List AscLineOutput :=
  if hasPayableSurgical rates lines then lines
  else
    lines.map fun g =>
      if (alistGet rates g.hcpcs).map RateInfo.addendum = some "BB" ∧
          g.status = "payable" then
        gateDowngrade g
      else g

/-- Unit count used by `_effective_rate` (client.py lines 440-444). -/
def effRateUnitCount (claim_lines : List LineItem) (g : AscLineOutput) : Int :=
  if 0 < g.units then g.units
  else if (lineAt claim_lines g.line_number).units ≠ 0 ∧
      1 ≤ (lineAt claim_lines g.line_number).units then
    max 1 (lineAt claim_lines g.line_number).units
  else 1

/-- `_effective_rate` (client.py lines 433-449): the lower of the adjusted
rate and the billed charge per unit, in exact (Decimal) arithmetic. -/
def effectiveRate (claim_lines : List LineItem) (g : AscLineOutput) : ℚ :=
  if 0 < (lineAt claim_lines g.line_number).charges then
    min g.adjusted_rate
      ((lineAt claim_lines g.line_number).charges /
        ((effRateUnitCount claim_lines g : Int) : ℚ))
  else g.adjusted_rate

/-- Units paid for a line in the summation loops:
`line_out.units if > 0 else max(1, int(billed or 1))` (client.py
lines 474-476 and 504-506). -/
def mprUnits (claim_lines : List LineItem) (g : AscLineOutput) : Int :=
  if 0 < g.units then g.units
  else max 1 (if (lineAt claim_lines g.line_number).units = 0 then 1
    else (lineAt claim_lines g.line_number).units)

/-- Payment of the first-ranked discount line: first unit at 100%, remaining
units at 50% (client.py lines 479-483), then cent rounding and the 80/20
split (lines 489-493). -/
def mprFirst (claim_lines : List LineItem) (g : AscLineOutput) :
    AscLineOutput × ℚ :=
  let units := mprUnits claim_lines g
  let eff := effectiveRate claim_lines g
  let raw := if 1 < units then eff + eff * (0.5 : ℚ) * ((units - 1 : Int) : ℚ) else eff
  let payment := quantizeCents raw
  ({ g with
      units := units
      discount_applied := false
      line_payment := quantizeCents (payment * (0.8 : ℚ))
      line_copayment := quantizeCents (payment * (0.2 : ℚ))
      line_total := payment }, payment)

/-- Payment of a subsequently-ranked discount line: all units at 50%
(client.py lines 484-493). -/
def mprRest (claim_lines : List LineItem) (g : AscLineOutput) :
    AscLineOutput × ℚ :=
  let units := mprUnits claim_lines g
  let eff := effectiveRate claim_lines g
  let payment := quantizeCents (eff * (0.5 : ℚ) * ((units : Int) : ℚ))
  ({ g with
      units := units
      discount_applied := true
      line_payment := quantizeCents (payment * (0.8 : ℚ))
      line_copayment := quantizeCents (payment * (0.2 : ℚ))
      line_total := payment }, payment)

/-- Loop over the subsequently-ranked discount lines, accumulating the total. -/
def mprRestFold (claim_lines : List LineItem) :
    List AscLineOutput → List AscLineOutput × ℚ
  | [] => ([], 0)
  | g :: gs =>
    let r := mprRest claim_lines g
    let rs := mprRestFold claim_lines gs
    (r.1 :: rs.1, r.2 + rs.2)

/-- Discount (MPR) loop of `process` (client.py lines 471-494) over the
already-sorted discount pool. -/
def mprApply (claim_lines : List LineItem) :
    List AscLineOutput → List AscLineOutput × ℚ
  | [] => ([], 0)
  | g :: gs =>
    let r := mprFirst claim_lines g
    let rs := mprRestFold claim_lines gs
    (r.1 :: rs.1, r.2 + rs.2)

/-- Payment of one payable non-discount line: `effective_rate × units`,
cent-rounded, 80/20 split (client.py lines 503-513). -/
def ndPay (claim_lines : List LineItem) (g : AscLineOutput) :
    AscLineOutput × ℚ :=
  let units := mprUnits claim_lines g
  let eff := effectiveRate claim_lines g
  let payment := quantizeCents (eff * ((units : Int) : ℚ))
  ({ g with
      units := units
      line_payment := quantizeCents (payment * (0.8 : ℚ))
      line_copayment := quantizeCents (payment * (0.2 : ℚ))
      line_total := payment }, payment)

/-- Non-discount loop of `process` (client.py lines 496-513): lines that are
not payable are skipped (their money fields were zeroed earlier); payable
lines pay via `ndPay`. -/
def ndApply (claim_lines : List LineItem) :
    List AscLineOutput → List AscLineOutput × ℚ
  | [] => ([], 0)
  | g :: gs =>
    let rs := ndApply claim_lines gs
    if g.status = "payable" then
      let r := ndPay claim_lines g
      (r.1 :: rs.1, r.2 + rs.2)
    else (g :: rs.1, rs.2)

/-- Stable insertion of `x` into a list already sorted by `keep`:
`keep x y` means `x` may stay in front of `y`. -/
def insertKeep {α : Type} (keep : α → α → Bool) (x : α) : List α → List α
  | [] => [x]
  | y :: ys => if keep x y then x :: y :: ys else y :: insertKeep keep x ys

/-- Stable sort (insertion sort).  For a total preorder `keep` this computes
the same list as Python's stable `list.sort`. -/
def stableSort {α : Type} (keep : α → α → Bool) : List α → List α
  | [] => []
  | x :: xs => insertKeep keep x (stableSort keep xs)

/-- `discount_lines.sort(key=_effective_rate, reverse=True)` (client.py
line 462): stable sort, effective rate descending, ties in input order. -/
def sortByEffRateDesc (claim_lines : List LineItem)
    (l : List AscLineOutput) : List AscLineOutput :=
  stableSort (fun a b =>
    decide (effectiveRate claim_lines b ≤ effectiveRate claim_lines a)) l

/-- `sorted(..., key=lambda x: x.line_number)` (client.py lines 515-517). -/
def sortByLineNumber (l : List AscLineOutput) : List AscLineOutput :=
  stableSort (fun a b => decide (a.line_number ≤ b.line_number)) l

/-- Final summation step of `process` (client.py lines 415-520): pool split,
discount ranking and MPR schedule, non-discount payment, and re-sort by line
number.  Returns the final line list and the claim total (the running
`total` accumulator of quantized per-line payments). -/
def aggregate (claim_lines : List LineItem) (calculated : List AscLineOutput) :
    List AscLineOutput × ℚ :=
  let discount_lines := calculated.filter fun g =>
    g.subject_to_discount && decide (0 < g.adjusted_rate)
  let no_discount_lines := calculated.filter fun g =>
    !g.subject_to_discount || decide (g.adjusted_rate ≤ 0)
  let sorted := sortByEffRateDesc claim_lines discount_lines
  let dres := mprApply claim_lines sorted
  let ndres := ndApply claim_lines no_discount_lines
  (sortByLineNumber (dres.1 ++ ndres.1), dres.2 + ndres.2)

/-!
## The pricing entry point (`AscClient.process`, client.py lines 278-522)
-/

/-- Python `a or b` on optional strings (empty string is falsy), as used by
the CBSA resolution chain (client.py lines 335-342). -/
def pyOrStr (a b : Option String) : Option String :=
  match a with
  | some s => if s = "" then b else some s
  | none => b

/-- Device-unit budget built from all device-prefixed claim lines appearing
in the code-pair table (client.py lines 366-375), in insertion order. -/
def buildDeviceUnits (code_pairs : List ((String × String) × List CodePairEntry))
    (claim_lines : List LineItem) : List (String × Int) :=
  claim_lines.foldl
    (fun acc line =>
      let hcpcs := line.hcpcs.toUpper.trim
      if hcpcs.startsWith "C" ∧ code_pairs.any (fun kp => decide (kp.1.1 = hcpcs)) then
        let line_units : Int := if 1 ≤ line.units then max 1 line.units else 1
        if acc.any (fun p => decide (p.1 = hcpcs)) then
          acc.map fun p => if p.1 = hcpcs then (p.1, p.2 + line_units) else p
        else acc ++ [(hcpcs, line_units)]
      else acc)
    []

/-- Per-line loop of `process` (client.py lines 377-387), threading the
mutable device-unit budget through the lines in order. -/
def runLines (ref : AscRefData) (wage_index : ℚ) (claim_date : PyDate) :
    List LineItem → List (String × Int) → ℕ → List AscLineOutput
  | [], _, _ => []
  | line :: rest, dev, idx =>
    let r := processLine ref wage_index claim_date dev idx line
    r.1 :: runLines ref wage_index claim_date rest r.2 (idx + 1)

/-- CBSA resolution chain of `process` (client.py lines 330-342):
explicit `additional_data["cbsa"]` override, else the provider's wage-index
location, else its geographic location, else `"0"` — empty strings falsy. -/
def resolvedCbsa (claim : Claim) (opsf : Option OPSFProvider) : String :=
  (pyOrStr (alistGet claim.additional_data "cbsa")
    (pyOrStr (opsf.bind OPSFProvider.cbsa_wage_index_location)
      (pyOrStr (opsf.bind OPSFProvider.cbsa_actual_geographic_location)
        (some "0")))).getD "0"

/-- Wage index for the resolved CBSA, defaulting to 1.0 when the CBSA is
missing from the table (client.py lines 343-347). -/
def resolvedWageIndex (ref : AscRefData) (claim : Claim)
    (opsf : Option OPSFProvider) : ℚ :=
  (alistGet ref.wage_indices (resolvedCbsa claim opsf)).getD 1

/-- Line outputs of `process` just before final summation: per-line
calculation, then MUE enforcement, then the ancillary gate (client.py
lines 351-413). -/
def preAggLines (ref : AscRefData) (claim : Claim) (opsf : Option OPSFProvider)
    (mues : List (String × AscMueLimit)) (thru : PyDate) : List AscLineOutput :=
  ancillaryGate ref.rates
    (mueCheck claim.lines
      (runLines ref (resolvedWageIndex ref claim opsf) thru claim.lines
        (buildDeviceUnits ref.code_pairs claim.lines) 0)
      mues)

/-- `AscClient.process` (client.py lines 278-522).  The reference bundle
`ref` models a successful `self.data_loader.get_data(claim.thru_date)`; the
`FileNotFoundError` (ASC02) and generic-exception (ASC99) branches concern
the loader, which is modelled separately by `getData`. -/
def process (ref : AscRefData) (claim : Claim) (opsf : Option OPSFProvider)
    (mues : List (String × AscMueLimit)) : AscOutput :=
  if opsf = none ∧ alistGet claim.additional_data "cbsa" = none then
    { error := some
        { code := "ASC01"
          description := "Missing OPSF Provider or CBSA"
          explanation := "ASC pricing requires OPSF provider data for Wage Index lookup." } }
  else
    match claim.thru_date with
    | none =>
      { error := some
          { code := "ASC03"
            description := "Missing Thru Date"
            explanation := "ASC pricing requires thru date for reference data lookup." } }
    | some thru =>
      let cbsa := resolvedCbsa claim opsf
      let wage_index : ℚ := resolvedWageIndex ref claim opsf
      let message : Option String :=
        match alistGet ref.wage_indices cbsa with
        | some _ => none
        | none => some ("Wage Index not found for CBSA " ++ cbsa ++
            ", it will default to 1.0. Please pass a valid CBSA in additional_data object and reprocess if desired.")
      let ares := aggregate claim.lines (preAggLines ref claim opsf mues thru)
      { cbsa := cbsa
        wage_index := wage_index
        lines := ares.1
        total_payment := quantizeCents (ares.2 * (0.8 : ℚ))
        total_copayment := quantizeCents (ares.2 * (0.2 : ℚ))
        total := ares.2
        error := none
        message := message }

/-- Discount pool of a line list: the filter on line 452-454 of client.py. -/
def discountPool (lines : List AscLineOutput) : List AscLineOutput :=
  lines.filter fun g => g.subject_to_discount && decide (0 < g.adjusted_rate)

/-!
## General properties of the stable sort
-/

theorem insertKeep_perm {α : Type} (keep : α → α → Bool) (x : α) (l : List α) :
    (insertKeep keep x l).Perm (x :: l) := by
  induction l with
  | nil => exact List.Perm.refl _
  | cons y ys ih =>
    unfold insertKeep
    by_cases h : keep x y = true
    · rw [if_pos h]
    · rw [if_neg h]
      exact (ih.cons y).trans (List.Perm.swap x y ys)

theorem stableSort_perm {α : Type} (keep : α → α → Bool) (l : List α) :
    (stableSort keep l).Perm l := by
  induction l with
  | nil => exact List.Perm.refl _
  | cons x xs ih =>
    exact (insertKeep_perm keep x (stableSort keep xs)).trans (ih.cons x)

theorem insertKeep_pairwise_desc {α : Type} (f : α → ℚ) (x : α) (l : List α)
    (hl : l.Pairwise (fun a b => f b ≤ f a)) :
    (insertKeep (fun a b => decide (f b ≤ f a)) x l).Pairwise
      (fun a b => f b ≤ f a) := by
  induction l with
  | nil => simp [insertKeep]
  | cons y ys ih =>
    rcases List.pairwise_cons.mp hl with ⟨hy, hys⟩
    unfold insertKeep
    by_cases h : f y ≤ f x
    · rw [if_pos (by simpa using h)]
      refine List.pairwise_cons.mpr ⟨?_, hl⟩
      intro z hz
      rcases List.mem_cons.mp hz with rfl | hz'
      · exact h
      · exact (hy z hz').trans h
    · rw [if_neg (by simpa using h)]
      refine List.pairwise_cons.mpr ⟨?_, ih hys⟩
      intro z hz
      have hz' : z ∈ x :: ys := (insertKeep_perm _ x ys).mem_iff.mp hz
      rcases List.mem_cons.mp hz' with rfl | hz''
      · exact le_of_not_le h
      · exact hy z hz''

theorem stableSort_pairwise_desc {α : Type} (f : α → ℚ) (l : List α) :
    (stableSort (fun a b => decide (f b ≤ f a)) l).Pairwise
      (fun a b => f b ≤ f a) := by
  induction l with
  | nil => simp [stableSort]
  | cons x xs ih => exact insertKeep_pairwise_desc f x _ ih

theorem sortByEffRateDesc_perm (claim_lines : List LineItem)
    (l : List AscLineOutput) : (sortByEffRateDesc claim_lines l).Perm l :=
  stableSort_perm _ l

theorem sortByEffRateDesc_pairwise (claim_lines : List LineItem)
    (l : List AscLineOutput) :
    (sortByEffRateDesc claim_lines l).Pairwise
      (fun a b => effectiveRate claim_lines b ≤ effectiveRate claim_lines a) :=
  stableSort_pairwise_desc (effectiveRate claim_lines) l

theorem sortByLineNumber_perm (l : List AscLineOutput) :
    (sortByLineNumber l).Perm l :=
  stableSort_perm _ l

/-!
## Structural facts about `_process_line`
-/

/-- Field facts holding for every output of `_process_line`: line number and
HCPCS come from the input line; the three money fields are untouched (zero);
the status is one of the five values the function can write (empty exactly
for a HCPCS missing from the fee schedule); a line that is not payable has a
zero adjusted rate. -/
theorem processLine_fields (ref : AscRefData) (wage_index : ℚ)
    (claim_date : PyDate) (dev : List (String × Int)) (idx : ℕ)
    (line : LineItem) :
    (processLine ref wage_index claim_date dev idx line).1.line_number = idx + 1 ∧
    (processLine ref wage_index claim_date dev idx line).1.hcpcs = line.hcpcs ∧
    (processLine ref wage_index claim_date dev idx line).1.line_payment = 0 ∧
    (processLine ref wage_index claim_date dev idx line).1.line_copayment = 0 ∧
    (processLine ref wage_index claim_date dev idx line).1.line_total = 0 ∧
    ((processLine ref wage_index claim_date dev idx line).1.status = "" ∨
      (processLine ref wage_index claim_date dev idx line).1.status = "denied" ∨
      (processLine ref wage_index claim_date dev idx line).1.status = "packaged" ∨
      (processLine ref wage_index claim_date dev idx line).1.status = "unprocessable" ∨
      (processLine ref wage_index claim_date dev idx line).1.status = "payable") ∧
    ((processLine ref wage_index claim_date dev idx line).1.status ≠ "payable" →
      (processLine ref wage_index claim_date dev idx line).1.adjusted_rate = 0) ∧
    ((processLine ref wage_index claim_date dev idx line).1.status = "" ↔
      alistGet ref.rates line.hcpcs = none) := by
  unfold processLine
  cases h : alistGet ref.rates line.hcpcs with
  | none => simp
  | some info =>
    simp only []
    by_cases h1 : info.indicator ∈ DENY_INDICATORS
    · simp [h1]
    · by_cases h2 : info.indicator ∈ DENY_PACKAGED_INDICATORS
      · simp [h1, h2]
      · by_cases h3 : info.indicator ∈ UNPROCESSABLE_INDICATORS
        · simp [h1, h2, h3]
        · by_cases h4 : info.rate = 0
          · simp [h1, h2, h3, h4]
          · by_cases h5 : "73" ∈ line.modifiers <;>
              simp [h1, h2, h3, h4, h5]

/-- Every line output produced by the per-line loop comes from `_process_line`
applied to one of the claim lines. -/
theorem runLines_mem {ref : AscRefData} {w : ℚ} {cd : PyDate} :
    ∀ {lines : List LineItem} {dev : List (String × Int)} {idx : ℕ}
      {g : AscLineOutput},
      g ∈ runLines ref w cd lines dev idx →
      ∃ line ∈ lines, ∃ dev' idx', g = (processLine ref w cd dev' idx' line).1 := by
  intro lines
  induction lines with
  | nil => intro dev idx g h; simp [runLines] at h
  | cons l ls ih =>
    intro dev idx g h
    simp only [runLines] at h
    rcases List.mem_cons.mp h with rfl | h'
    · exact ⟨l, List.mem_cons_self l ls, dev, idx, rfl⟩
    · obtain ⟨line, hmem, dev', idx', heq⟩ := ih h'
      exact ⟨line, List.mem_cons_of_mem l hmem, dev', idx', heq⟩

/-!
## Structural facts about `_mue_check`
-/

theorem mueMembers_mem (cl : List LineItem) (cs : List AscLineOutput)
    (g : AscLineOutput) :
    ∀ m ∈ mueMembers cl cs g, m ∈ cs ∧ m.status = "payable" ∧
      m.hcpcs = g.hcpcs ∧
      (lineAt cl m.line_number).service_date =
        (lineAt cl g.line_number).service_date := by
  intro m hm
  rcases List.mem_filter.mp hm with ⟨hmem, hcond⟩
  have hc := of_decide_eq_true hcond
  exact ⟨hmem, hc.1, hc.2.1, hc.2.2⟩

theorem mueMembers_self (cl : List LineItem) (cs : List AscLineOutput)
    (g : AscLineOutput) (hg : g ∈ cs) (hpay : g.status = "payable") :
    g ∈ mueMembers cl cs g :=
  List.mem_filter.mpr ⟨hg, decide_eq_true ⟨hpay, rfl, rfl⟩⟩

/-- Ways one group member can come out of the group edit: untouched, denied,
or capped. -/
def MueShape (ms : List AscLineOutput) (g' : AscLineOutput) : Prop :=
  ∃ m ∈ ms, g' = m ∨ (∃ t lim s, g' = mueDeny t lim s m) ∨
    ∃ b r lim, g' = mueCap b r lim m

theorem mueDosEdit_shape (cl : List LineItem) (t lim : Int) :
    ∀ (r : Int) (ms : List AscLineOutput), ∀ g' ∈ mueDosEdit cl t lim r ms,
      MueShape ms g' := by
  intro r ms
  induction ms generalizing r with
  | nil => intro g' h; simp [mueDosEdit] at h
  | cons m rest ih =>
    intro g' h
    unfold mueDosEdit at h
    by_cases h1 : r ≤ 0
    · rw [if_pos h1] at h
      rcases List.mem_cons.mp h with rfl | h'
      · exact ⟨m, List.mem_cons_self m rest, Or.inr (Or.inl ⟨t, lim, _, rfl⟩)⟩
      · obtain ⟨m2, hm2, hc⟩ := ih r g' h'
        exact ⟨m2, List.mem_cons_of_mem m hm2, hc⟩
    · rw [if_neg h1] at h
      by_cases h2 : r < mueBilled cl m.line_number
      · rw [if_pos h2] at h
        rcases List.mem_cons.mp h with rfl | h'
        · exact ⟨m, List.mem_cons_self m rest, Or.inr (Or.inr ⟨_, r, lim, rfl⟩)⟩
        · obtain ⟨m2, hm2, hc⟩ := ih 0 g' h'
          exact ⟨m2, List.mem_cons_of_mem m hm2, hc⟩
      · rw [if_neg h2] at h
        rcases List.mem_cons.mp h with rfl | h'
        · exact ⟨g', List.mem_cons_self g' rest, Or.inl rfl⟩
        · obtain ⟨m2, hm2, hc⟩ := ih _ g' h'
          exact ⟨m2, List.mem_cons_of_mem m hm2, hc⟩

theorem mueGroupEdit_shape (cl : List LineItem) (mue : AscMueLimit)
    (ms : List AscLineOutput) : ∀ g' ∈ mueGroupEdit cl mue ms, MueShape ms g' := by
  intro g' h
  unfold mueGroupEdit at h
  by_cases h1 : mueGroupTotal cl ms ≤ mue.mue_limit
  · rw [if_pos h1] at h
    exact ⟨g', h, Or.inl rfl⟩
  · rw [if_neg h1] at h
    by_cases h2 : mue.up_to_limit = false
    · rw [if_pos h2] at h
      obtain ⟨m, hm, heq⟩ := List.mem_map.mp h
      exact ⟨m, hm, Or.inr (Or.inl ⟨_, _, _, heq.symm⟩)⟩
    · rw [if_neg h2] at h
      exact mueDosEdit_shape cl _ _ _ ms g' h

theorem mueLineStep_shape (cl : List LineItem) (cs : List AscLineOutput)
    (mues : List (String × AscMueLimit)) (g : AscLineOutput) :
    mueLineStep cl cs mues g = g ∨
      ∃ m, m ∈ cs ∧ m.status = "payable" ∧
        (mueLineStep cl cs mues g = m ∨
          (∃ t lim s, mueLineStep cl cs mues g = mueDeny t lim s m) ∨
          ∃ b r lim, mueLineStep cl cs mues g = mueCap b r lim m) := by
  cases halist : alistGet mues g.hcpcs with
  | none =>
    refine Or.inl ?_
    unfold mueLineStep
    rw [halist]
  | some mue =>
    have hstep : mueLineStep cl cs mues g =
        if g.status = "payable" then
          ((mueGroupEdit cl mue (mueMembers cl cs g)).find?
            fun h => decide (h.line_number = g.line_number)).getD g
        else g := by
      unfold mueLineStep
      rw [halist]
    by_cases hpay : g.status = "payable"
    · rw [hstep, if_pos hpay]
      cases hf : (mueGroupEdit cl mue (mueMembers cl cs g)).find?
          (fun h => decide (h.line_number = g.line_number)) with
      | none => exact Or.inl rfl
      | some e =>
        have he : e ∈ mueGroupEdit cl mue (mueMembers cl cs g) :=
          List.mem_of_find?_eq_some hf
        obtain ⟨m, hm, hc⟩ := mueGroupEdit_shape cl mue _ e he
        have hmm := mueMembers_mem cl cs g m hm
        exact Or.inr ⟨m, hmm.1, hmm.2.1, hc⟩
    · rw [hstep, if_neg hpay]
      exact Or.inl rfl

/-- Lines that are not currently payable are untouched by the MUE stage. -/
theorem mueLineStep_untouched (cl : List LineItem) (cs : List AscLineOutput)
    (mues : List (String × AscMueLimit)) (g : AscLineOutput)
    (h : g.status ≠ "payable") : mueLineStep cl cs mues g = g := by
  cases halist : alistGet mues g.hcpcs with
  | none =>
    unfold mueLineStep
    rw [halist]
  | some mue =>
    have hstep : mueLineStep cl cs mues g =
        if g.status = "payable" then
          ((mueGroupEdit cl mue (mueMembers cl cs g)).find?
            fun h => decide (h.line_number = g.line_number)).getD g
        else g := by
      unfold mueLineStep
      rw [halist]
    rw [hstep, if_neg h]

/-- Invariant transfer through the MUE stage: a property holding on all
pre-MUE lines and preserved by denial and capping of payable lines holds on
all post-MUE lines. -/
theorem mueCheck_invariant (cl : List LineItem) (cs : List AscLineOutput)
    (mues : List (String × AscMueLimit)) (P : AscLineOutput → Prop)
    (hP : ∀ g ∈ cs, P g)
    (hdeny : ∀ m ∈ cs, m.status = "payable" → ∀ t lim s, P (mueDeny t lim s m))
    (hcap : ∀ m ∈ cs, m.status = "payable" → ∀ b r lim, P (mueCap b r lim m)) :
    ∀ g' ∈ mueCheck cl cs mues, P g' := by
  intro g' h
  unfold mueCheck at h
  by_cases hm : mues = []
  · rw [if_pos hm] at h
    exact hP g' h
  · rw [if_neg hm] at h
    obtain ⟨g, hg, heq⟩ := List.mem_map.mp h
    rcases mueLineStep_shape cl cs mues g with hid | ⟨m, hmc, hmp, hcase⟩
    · rw [← heq, hid]; exact hP g hg
    · rcases hcase with hid | ⟨t, lim, s, hid⟩ | ⟨b, r, lim, hid⟩ <;>
        rw [← heq, hid]
      · exact hP m hmc
      · exact hdeny m hmc hmp t lim s
      · exact hcap m hmc hmp b r lim

/-!
## Structural facts about the ancillary gate
-/

theorem ancillaryGate_shape (rates : List (String × RateInfo))
    (lines : List AscLineOutput) :
    ∀ g' ∈ ancillaryGate rates lines, ∃ g ∈ lines,
      g' = g ∨
        (g.status = "payable" ∧
          (alistGet rates g.hcpcs).map RateInfo.addendum = some "BB" ∧
          g' = gateDowngrade g) := by
  intro g' h
  unfold ancillaryGate at h
  by_cases hs : hasPayableSurgical rates lines = true
  · rw [if_pos hs] at h
    exact ⟨g', h, Or.inl rfl⟩
  · rw [if_neg hs] at h
    obtain ⟨g, hg, heq⟩ := List.mem_map.mp h
    by_cases hc : (alistGet rates g.hcpcs).map RateInfo.addendum = some "BB" ∧
        g.status = "payable"
    · rw [if_pos hc] at heq
      exact ⟨g, hg, Or.inr ⟨hc.2, hc.1, heq.symm⟩⟩
    · rw [if_neg hc] at heq
      exact ⟨g, hg, Or.inl heq.symm⟩

/-- When no payable surgical line exists, the gate downgrades every payable
addendum-"BB" line (positionally, via the map). -/
theorem ancillaryGate_downgrades (rates : List (String × RateInfo))
    (lines : List AscLineOutput)
    (hno : hasPayableSurgical rates lines = false)
    (g : AscLineOutput) (hg : g ∈ lines) (hpay : g.status = "payable")
    (hbb : (alistGet rates g.hcpcs).map RateInfo.addendum = some "BB") :
    gateDowngrade g ∈ ancillaryGate rates lines := by
  unfold ancillaryGate
  rw [if_neg (by rw [hno]; exact Bool.false_ne_true)]
  have hfun : (fun g => if (alistGet rates g.hcpcs).map RateInfo.addendum = some "BB" ∧
      g.status = "payable" then gateDowngrade g else g) g = gateDowngrade g := by
    simp only []
    rw [if_pos ⟨hbb, hpay⟩]
  rw [← hfun]
  exact List.mem_map_of_mem _ hg

/-!
## Structural facts about the final summation
-/

theorem mprFirst_proj (cl : List LineItem) (g : AscLineOutput) :
    (mprFirst cl g).1.status = g.status ∧
    (mprFirst cl g).1.hcpcs = g.hcpcs ∧
    (mprFirst cl g).1.line_number = g.line_number ∧
    (mprFirst cl g).1.subject_to_discount = g.subject_to_discount ∧
    (mprFirst cl g).1.adjusted_rate = g.adjusted_rate ∧
    (mprFirst cl g).1.discount_applied = false ∧
    (mprFirst cl g).1.units = mprUnits cl g ∧
    (mprFirst cl g).1.line_total = (mprFirst cl g).2 :=
  ⟨rfl, rfl, rfl, rfl, rfl, rfl, rfl, rfl⟩

theorem mprRest_proj (cl : List LineItem) (g : AscLineOutput) :
    (mprRest cl g).1.status = g.status ∧
    (mprRest cl g).1.hcpcs = g.hcpcs ∧
    (mprRest cl g).1.line_number = g.line_number ∧
    (mprRest cl g).1.subject_to_discount = g.subject_to_discount ∧
    (mprRest cl g).1.adjusted_rate = g.adjusted_rate ∧
    (mprRest cl g).1.discount_applied = true ∧
    (mprRest cl g).1.units = mprUnits cl g ∧
    (mprRest cl g).1.line_total = (mprRest cl g).2 :=
  ⟨rfl, rfl, rfl, rfl, rfl, rfl, rfl, rfl⟩

theorem ndPay_proj (cl : List LineItem) (g : AscLineOutput) :
    (ndPay cl g).1.status = g.status ∧
    (ndPay cl g).1.hcpcs = g.hcpcs ∧
    (ndPay cl g).1.line_number = g.line_number ∧
    (ndPay cl g).1.subject_to_discount = g.subject_to_discount ∧
    (ndPay cl g).1.adjusted_rate = g.adjusted_rate ∧
    (ndPay cl g).1.discount_applied = g.discount_applied ∧
    (ndPay cl g).1.units = mprUnits cl g ∧
    (ndPay cl g).1.line_total = (ndPay cl g).2 :=
  ⟨rfl, rfl, rfl, rfl, rfl, rfl, rfl, rfl⟩

theorem mprRestFold_mem (cl : List LineItem) :
    ∀ (l : List AscLineOutput), ∀ g' ∈ (mprRestFold cl l).1,
      ∃ g ∈ l, g' = (mprRest cl g).1 := by
  intro l
  induction l with
  | nil => intro g' h; simp [mprRestFold] at h
  | cons g gs ih =>
    intro g' h
    have h' : g' ∈ (mprRest cl g).1 :: (mprRestFold cl gs).1 := h
    rcases List.mem_cons.mp h' with rfl | h''
    · exact ⟨g, List.mem_cons_self g gs, rfl⟩
    · obtain ⟨g0, hg0, heq⟩ := ih g' h''
      exact ⟨g0, List.mem_cons_of_mem g hg0, heq⟩

theorem mprApply_mem (cl : List LineItem) (l : List AscLineOutput) :
    ∀ g' ∈ (mprApply cl l).1,
      ∃ g ∈ l, g' = (mprFirst cl g).1 ∨ g' = (mprRest cl g).1 := by
  intro g' h
  cases l with
  | nil => simp [mprApply] at h
  | cons g gs =>
    have h' : g' ∈ (mprFirst cl g).1 :: (mprRestFold cl gs).1 := h
    rcases List.mem_cons.mp h' with rfl | h''
    · exact ⟨g, List.mem_cons_self g gs, Or.inl rfl⟩
    · obtain ⟨g0, hg0, heq⟩ := mprRestFold_mem cl gs g' h''
      exact ⟨g0, List.mem_cons_of_mem g hg0, Or.inr heq⟩

theorem ndApply_cons (cl : List LineItem) (g : AscLineOutput)
    (gs : List AscLineOutput) :
    ndApply cl (g :: gs) =
      if g.status = "payable" then
        ((ndPay cl g).1 :: (ndApply cl gs).1, (ndPay cl g).2 + (ndApply cl gs).2)
      else (g :: (ndApply cl gs).1, (ndApply cl gs).2) := rfl

theorem ndApply_mem (cl : List LineItem) :
    ∀ (l : List AscLineOutput), ∀ g' ∈ (ndApply cl l).1,
      ∃ g ∈ l, g' = g ∨ (g.status = "payable" ∧ g' = (ndPay cl g).1) := by
  intro l
  induction l with
  | nil => intro g' h; simp [ndApply] at h
  | cons g gs ih =>
    intro g' h
    rw [ndApply_cons] at h
    by_cases hp : g.status = "payable"
    · rw [if_pos hp] at h
      have h' : g' ∈ (ndPay cl g).1 :: (ndApply cl gs).1 := h
      rcases List.mem_cons.mp h' with rfl | h''
      · exact ⟨g, List.mem_cons_self g gs, Or.inr ⟨hp, rfl⟩⟩
      · obtain ⟨g0, hg0, hc⟩ := ih g' h''
        exact ⟨g0, List.mem_cons_of_mem g hg0, hc⟩
    · rw [if_neg hp] at h
      have h' : g' ∈ g :: (ndApply cl gs).1 := h
      rcases List.mem_cons.mp h' with rfl | h''
      · exact ⟨g', List.mem_cons_self g' gs, Or.inl rfl⟩
      · obtain ⟨g0, hg0, hc⟩ := ih g' h''
        exact ⟨g0, List.mem_cons_of_mem g hg0, hc⟩

theorem mprRestFold_sum (cl : List LineItem) :
    ∀ (l : List AscLineOutput),
      (((mprRestFold cl l).1).map AscLineOutput.line_total).sum =
        (mprRestFold cl l).2 := by
  intro l
  induction l with
  | nil => simp [mprRestFold]
  | cons g gs ih =>
    have heq : mprRestFold cl (g :: gs) =
        ((mprRest cl g).1 :: (mprRestFold cl gs).1,
          (mprRest cl g).2 + (mprRestFold cl gs).2) := rfl
    rw [heq]
    simp only [List.map_cons, List.sum_cons, ih]
    rw [(mprRest_proj cl g).2.2.2.2.2.2.2]

theorem mprApply_sum (cl : List LineItem) (l : List AscLineOutput) :
    (((mprApply cl l).1).map AscLineOutput.line_total).sum = (mprApply cl l).2 := by
  cases l with
  | nil => simp [mprApply]
  | cons g gs =>
    have heq : mprApply cl (g :: gs) =
        ((mprFirst cl g).1 :: (mprRestFold cl gs).1,
          (mprFirst cl g).2 + (mprRestFold cl gs).2) := rfl
    rw [heq]
    simp only [List.map_cons, List.sum_cons, mprRestFold_sum]
    rw [(mprFirst_proj cl g).2.2.2.2.2.2.2]

theorem ndApply_sum (cl : List LineItem) :
    ∀ (l : List AscLineOutput), (∀ g ∈ l, g.line_total = 0) →
      (((ndApply cl l).1).map AscLineOutput.line_total).sum = (ndApply cl l).2 := by
  intro l
  induction l with
  | nil => intro _; simp [ndApply]
  | cons g gs ih =>
    intro h0
    have h0' : ∀ x ∈ gs, x.line_total = 0 := fun x hx =>
      h0 x (List.mem_cons_of_mem g hx)
    rw [ndApply_cons]
    by_cases hp : g.status = "payable"
    · rw [if_pos hp]
      simp only [List.map_cons, List.sum_cons, ih h0']
      rw [(ndPay_proj cl g).2.2.2.2.2.2.2]
    · rw [if_neg hp]
      simp only [List.map_cons, List.sum_cons, ih h0']
      rw [h0 g (List.mem_cons_self g gs), zero_add]

/-- Unfolding equation for `aggregate`. -/
theorem aggregate_eq (cl : List LineItem) (cs : List AscLineOutput) :
    aggregate cl cs =
      (sortByLineNumber
        ((mprApply cl (sortByEffRateDesc cl (cs.filter fun g =>
            g.subject_to_discount && decide (0 < g.adjusted_rate)))).1 ++
          (ndApply cl (cs.filter fun g =>
            !g.subject_to_discount || decide (g.adjusted_rate ≤ 0))).1),
        (mprApply cl (sortByEffRateDesc cl (cs.filter fun g =>
            g.subject_to_discount && decide (0 < g.adjusted_rate)))).2 +
          (ndApply cl (cs.filter fun g =>
            !g.subject_to_discount || decide (g.adjusted_rate ≤ 0))).2) := rfl

/-- Summing the per-line cent-rounded totals over the final line list gives
exactly the claim total accumulator, provided all money fields were zero
before summation (which the pipeline guarantees). -/
theorem aggregate_sum (cl : List LineItem) (cs : List AscLineOutput)
    (h0 : ∀ g ∈ cs, g.line_total = 0) :
    (((aggregate cl cs).1).map AscLineOutput.line_total).sum =
      (aggregate cl cs).2 := by
  rw [aggregate_eq]
  have hperm := ((sortByLineNumber_perm
    ((mprApply cl (sortByEffRateDesc cl (cs.filter fun g =>
        g.subject_to_discount && decide (0 < g.adjusted_rate)))).1 ++
      (ndApply cl (cs.filter fun g =>
        !g.subject_to_discount || decide (g.adjusted_rate ≤ 0))).1)).map
    AscLineOutput.line_total).sum_eq
  simp only []
  rw [hperm, List.map_append, List.sum_append, mprApply_sum, ndApply_sum]
  intro g hg
  exact h0 g (List.mem_filter.mp hg).1

/-- Every line of the final output comes from a pre-summation line: either
unchanged, or paid through the discount loop (then it was in the discount
pool), or paid through the non-discount loop (then it was payable). -/
theorem aggregate_mem (cl : List LineItem) (cs : List AscLineOutput) :
    ∀ g' ∈ (aggregate cl cs).1, ∃ g ∈ cs,
      g' = g ∨
        ((g.subject_to_discount = true ∧ 0 < g.adjusted_rate) ∧
          (g' = (mprFirst cl g).1 ∨ g' = (mprRest cl g).1)) ∨
        (g.status = "payable" ∧ g' = (ndPay cl g).1) := by
  intro g' h
  rw [aggregate_eq] at h
  simp only [] at h
  have h' := (sortByLineNumber_perm _).mem_iff.mp h
  rcases List.mem_append.mp h' with hd | hn
  · obtain ⟨g, hg, hc⟩ := mprApply_mem cl _ g' hd
    have hg' := (sortByEffRateDesc_perm cl _).mem_iff.mp hg
    rcases List.mem_filter.mp hg' with ⟨hmem, hcond⟩
    have hcond' : g.subject_to_discount = true ∧ 0 < g.adjusted_rate := by
      simp only [Bool.and_eq_true, decide_eq_true_eq] at hcond
      exact hcond
    exact ⟨g, hmem, Or.inr (Or.inl ⟨hcond', hc⟩)⟩
  · obtain ⟨g, hg, hc⟩ := ndApply_mem cl _ g' hn
    rcases List.mem_filter.mp hg with ⟨hmem, _⟩
    rcases hc with rfl | ⟨hp, heq⟩
    · exact ⟨g', hmem, Or.inl rfl⟩
    · exact ⟨g, hmem, Or.inr (Or.inr ⟨hp, heq⟩)⟩

/-!
## The pipeline invariant before final summation
-/

/-- Invariant holding for every line output between line calculation and
final summation: money fields still zero; status one of the five written
values, empty exactly for fee-schedule misses; non-payable lines carry a
zero adjusted rate. -/
def StageInv (ref : AscRefData) (g : AscLineOutput) : Prop :=
  g.line_payment = 0 ∧ g.line_copayment = 0 ∧ g.line_total = 0 ∧
  (g.status = "" ∨ g.status = "denied" ∨ g.status = "packaged" ∨
    g.status = "unprocessable" ∨ g.status = "payable") ∧
  (g.status ≠ "payable" → g.adjusted_rate = 0) ∧
  (g.status = "" ↔ alistGet ref.rates g.hcpcs = none)

theorem runLines_inv (ref : AscRefData) (w : ℚ) (cd : PyDate)
    (lines : List LineItem) (dev : List (String × Int)) (idx : ℕ) :
    ∀ g ∈ runLines ref w cd lines dev idx, StageInv ref g := by
  intro g hg
  obtain ⟨line, _, dev', idx', rfl⟩ := runLines_mem hg
  have hf := processLine_fields ref w cd dev' idx' line
  refine ⟨hf.2.2.1, hf.2.2.2.1, hf.2.2.2.2.1, hf.2.2.2.2.2.1,
    hf.2.2.2.2.2.2.1, ?_⟩
  rw [hf.2.1]
  exact hf.2.2.2.2.2.2.2

theorem mueCheck_inv (ref : AscRefData) (cl : List LineItem)
    (cs : List AscLineOutput) (mues : List (String × AscMueLimit))
    (h : ∀ g ∈ cs, StageInv ref g) :
    ∀ g' ∈ mueCheck cl cs mues, StageInv ref g' := by
  refine mueCheck_invariant cl cs mues _ h ?_ ?_
  · intro m hm hpay t lim s
    obtain ⟨_, _, _, _, _, hiff⟩ := h m hm
    refine ⟨rfl, rfl, rfl, Or.inr (Or.inl rfl), fun _ => rfl, ?_⟩
    constructor
    · intro hcon
      simp [mueDeny] at hcon
    · intro hnone
      have hmt : m.status = "" := hiff.mpr hnone
      rw [hpay] at hmt
      exact absurd hmt (by decide)
  · intro m hm hpay b r lim
    exact h m hm

theorem ancillaryGate_inv (ref : AscRefData) (lines : List AscLineOutput)
    (h : ∀ g ∈ lines, StageInv ref g) :
    ∀ g' ∈ ancillaryGate ref.rates lines, StageInv ref g' := by
  intro g' hg'
  obtain ⟨g, hg, hc⟩ := ancillaryGate_shape ref.rates lines g' hg'
  rcases hc with heq | ⟨hpay, hbb, heq⟩
  · rw [heq]
    exact h g hg
  · rw [heq]
    obtain ⟨h1, h2, h3, _, _, _⟩ := h g hg
    refine ⟨h1, h2, h3, Or.inr (Or.inr (Or.inr (Or.inl rfl))), fun _ => rfl, ?_⟩
    constructor
    · intro hcon
      simp [gateDowngrade] at hcon
    · intro hnone
      cases halist : alistGet ref.rates g.hcpcs with
      | none => rw [halist] at hbb; exact Option.noConfusion hbb
      | some info =>
        have hsame : alistGet ref.rates (gateDowngrade g).hcpcs = some info := halist
        rw [hsame] at hnone
        exact Option.noConfusion hnone

theorem preAggLines_inv (ref : AscRefData) (claim : Claim)
    (opsf : Option OPSFProvider) (mues : List (String × AscMueLimit))
    (thru : PyDate) : ∀ g ∈ preAggLines ref claim opsf mues thru, StageInv ref g := by
  unfold preAggLines
  exact ancillaryGate_inv ref _
    (mueCheck_inv ref _ _ _ (runLines_inv ref _ _ _ _ _))

/-- After summation, a line that is not payable keeps a zero adjusted rate
and zero money fields. -/
theorem aggregate_nonpayable (cl : List LineItem) (cs : List AscLineOutput)
    (hnp : ∀ g ∈ cs, g.status ≠ "payable" → g.adjusted_rate = 0)
    (h0 : ∀ g ∈ cs, g.line_payment = 0 ∧ g.line_copayment = 0 ∧ g.line_total = 0) :
    ∀ g' ∈ (aggregate cl cs).1, g'.status ≠ "payable" →
      g'.adjusted_rate = 0 ∧ g'.line_payment = 0 ∧ g'.line_copayment = 0 ∧
        g'.line_total = 0 := by
  intro g' hg' hns
  obtain ⟨g, hg, hc⟩ := aggregate_mem cl cs g' hg'
  rcases hc with heq | ⟨⟨_, hrate⟩, hc⟩ | ⟨hp, heq⟩
  · rw [heq] at hns ⊢
    obtain ⟨h1, h2, h3⟩ := h0 g hg
    exact ⟨hnp g hg hns, h1, h2, h3⟩
  · have hgpay : g.status = "payable" := by
      by_contra hgs
      have hz := hnp g hg hgs
      rw [hz] at hrate
      exact lt_irrefl _ hrate
    rcases hc with heq | heq <;> rw [heq] at hns
    · exact absurd ((mprFirst_proj cl g).1.trans hgpay) hns
    · exact absurd ((mprRest_proj cl g).1.trans hgpay) hns
  · rw [heq] at hns
    exact absurd ((ndPay_proj cl g).1.trans hp) hns

/-- Status and HCPCS of every line survive summation unchanged, so any
property of (status, hcpcs) transfers. -/
theorem aggregate_preserves_status (cl : List LineItem)
    (cs : List AscLineOutput) (Q : String → String → Prop)
    (h : ∀ g ∈ cs, Q g.status g.hcpcs) :
    ∀ g' ∈ (aggregate cl cs).1, Q g'.status g'.hcpcs := by
  intro g' hg'
  obtain ⟨g, hg, hc⟩ := aggregate_mem cl cs g' hg'
  rcases hc with heq | ⟨_, hc⟩ | ⟨_, heq⟩
  · rw [heq]
    exact h g hg
  · rcases hc with heq | heq <;> rw [heq] <;> exact h g hg
  · rw [heq]
    exact h g hg

/-!
## Dissection of `process`
-/

theorem process_ok (ref : AscRefData) (claim : Claim)
    (opsf : Option OPSFProvider) (mues : List (String × AscMueLimit))
    (thru : PyDate)
    (hval : ¬(opsf = none ∧ alistGet claim.additional_data "cbsa" = none))
    (hthru : claim.thru_date = some thru) :
    (process ref claim opsf mues).lines =
      (aggregate claim.lines (preAggLines ref claim opsf mues thru)).1 ∧
    (process ref claim opsf mues).total =
      (aggregate claim.lines (preAggLines ref claim opsf mues thru)).2 ∧
    (process ref claim opsf mues).total_payment =
      quantizeCents
        ((aggregate claim.lines (preAggLines ref claim opsf mues thru)).2 * (0.8 : ℚ)) ∧
    (process ref claim opsf mues).total_copayment =
      quantizeCents
        ((aggregate claim.lines (preAggLines ref claim opsf mues thru)).2 * (0.2 : ℚ)) ∧
    (process ref claim opsf mues).error = none := by
  unfold process
  rw [if_neg hval, hthru]
  exact ⟨rfl, rfl, rfl, rfl, rfl⟩

theorem process_err (ref : AscRefData) (claim : Claim)
    (opsf : Option OPSFProvider) (mues : List (String × AscMueLimit))
    (h : (opsf = none ∧ alistGet claim.additional_data "cbsa" = none) ∨
      claim.thru_date = none) :
    (process ref claim opsf mues).lines = [] ∧
    (process ref claim opsf mues).total_payment = 0 ∧
    (process ref claim opsf mues).total_copayment = 0 ∧
    (process ref claim opsf mues).total = 0 := by
  unfold process
  rcases h with h | h
  · rw [if_pos h]
    exact ⟨rfl, rfl, rfl, rfl⟩
  · by_cases hv : opsf = none ∧ alistGet claim.additional_data "cbsa" = none
    · rw [if_pos hv]
      exact ⟨rfl, rfl, rfl, rfl⟩
    · rw [if_neg hv, h]
      exact ⟨rfl, rfl, rfl, rfl⟩

/-!
## Concrete fixtures for counterexamples and witnesses
-/

/-- Bundle with one payable, non-discounted $100 code and wage index 1.0. -/
def centRef : AscRefData :=
  { rates := [("20001",
      { rate := 100, indicator := "A2", subject_to_discount := false,
        addendum := "AA" })]
    device_offsets := []
    wage_indices := [("10000", 1)]
    code_pairs := [] }

/-- Line billing 1 unit of that code with 3 cents of charges (so the
lower-of-charges rule makes the effective rate $0.03). -/
def centLine : LineItem :=
  { hcpcs := "20001", units := 1, modifiers := [], charges := 0.03,
    service_date := none }

/-- Claim with two such lines. -/
def centClaim : Claim :=
  { thru_date := some ⟨2025, 1, 15⟩, additional_data := [("cbsa", "10000")],
    lines := [centLine, centLine] }

/-- Line with a HCPCS appearing in no fee schedule. -/
def missLine : LineItem :=
  { hcpcs := "ZZZZ", units := 1, modifiers := [], charges := 10,
    service_date := none }

/-- Claim with a single line whose HCPCS is not in the fee schedule. -/
def missClaim : Claim :=
  { thru_date := some ⟨2025, 1, 15⟩, additional_data := [("cbsa", "10000")],
    lines := [missLine] }

/-- Bundle whose only code is an addendum-"BB" ancillary with the denial
indicator C5. -/
def bbRef : AscRefData :=
  { rates := [("40001",
      { rate := 100, indicator := "C5", subject_to_discount := true,
        addendum := "BB" })]
    device_offsets := []
    wage_indices := []
    code_pairs := [] }

/-- Line billing one unit of that BB/C5 code. -/
def bbLine : LineItem :=
  { hcpcs := "40001", units := 1, modifiers := [], charges := 10,
    service_date := none }

/-- Claim with a single line of that BB/C5 code. -/
def bbClaim : Claim :=
  { thru_date := some ⟨2025, 1, 15⟩, additional_data := [("cbsa", "10000")],
    lines := [bbLine] }

/-!
## C1 — cent-exactness of the claim totals
-/

/-- C1, counterexample: two payable non-discounted lines, each with an
effective rate of $0.03.  Per line: total $0.03, Medicare share
quantize(0.024) = $0.02, so the line payments sum to $0.04; the claim-level
Medicare total is quantize(0.8 × 0.06) = $0.05.  The claimed equality
`sum(line_payment) == total_payment` fails (as does the copayment analogue);
only the line-total sum is cent-exact. -/
theorem claim1_counterexample :
    (((process centRef centClaim none []).lines).map
      AscLineOutput.line_payment).sum = (0.04 : ℚ) ∧
    (process centRef centClaim none []).total_payment = (0.05 : ℚ) ∧
    ((0.04 : ℚ) ≠ (0.05 : ℚ)) := by
  refine ⟨by with_unfolding_all rfl, by with_unfolding_all rfl, by norm_num⟩

/-- C1 (amended): for every priced claim the per-line totals are cent-exact:
`sum(line.line_total) == claim.total` exactly.  The claim-level Medicare and
beneficiary shares, however, are rounded percentages of the claim total
(`total_payment = quantize(0.8 × total)`, `total_copayment =
quantize(0.2 × total)`) and need not equal the sums of the per-line
`line_payment` / `line_copayment` fields. -/
theorem claim1_cent_exact_totals (ref : AscRefData) (claim : Claim)
    (opsf : Option OPSFProvider) (mues : List (String × AscMueLimit)) :
    (((process ref claim opsf mues).lines).map AscLineOutput.line_total).sum =
      (process ref claim opsf mues).total ∧
    (process ref claim opsf mues).total_payment =
      quantizeCents ((process ref claim opsf mues).total * (0.8 : ℚ)) ∧
    (process ref claim opsf mues).total_copayment =
      quantizeCents ((process ref claim opsf mues).total * (0.2 : ℚ)) := by
  by_cases hval : opsf = none ∧ alistGet claim.additional_data "cbsa" = none
  · obtain ⟨hl, hp, hc, ht⟩ := process_err ref claim opsf mues (Or.inl hval)
    rw [hl, hp, hc, ht]
    exact ⟨rfl, by with_unfolding_all rfl, by with_unfolding_all rfl⟩
  · cases hthru : claim.thru_date with
    | none =>
      obtain ⟨hl, hp, hc, ht⟩ := process_err ref claim opsf mues (Or.inr hthru)
      rw [hl, hp, hc, ht]
      exact ⟨rfl, by with_unfolding_all rfl, by with_unfolding_all rfl⟩
    | some thru =>
      obtain ⟨hl, ht, hp, hc, _⟩ := process_ok ref claim opsf mues thru hval hthru
      rw [hl, ht, hp, hc]
      refine ⟨?_, rfl, rfl⟩
      apply aggregate_sum
      intro g hg
      exact (preAggLines_inv ref claim opsf mues thru g hg).2.2.1

/-!
## C10 — non-payable lines never carry money
-/

/-- C10: every output line whose final status is not "payable" ends with a
zero adjusted rate and zero Medicare payment, copayment, and total-allowed
amounts — every payability-removing path also zeroes the rate, and the
summation loops only pay lines that are payable (non-discount pool) or have
a positive adjusted rate (discount pool). -/
theorem claim10_nonpayable_zeroed (ref : AscRefData) (claim : Claim)
    (opsf : Option OPSFProvider) (mues : List (String × AscMueLimit)) :
    ∀ l ∈ (process ref claim opsf mues).lines, l.status ≠ "payable" →
      l.adjusted_rate = 0 ∧ l.line_payment = 0 ∧ l.line_copayment = 0 ∧
        l.line_total = 0 := by
  intro l hl hns
  by_cases hval : opsf = none ∧ alistGet claim.additional_data "cbsa" = none
  · rw [(process_err ref claim opsf mues (Or.inl hval)).1] at hl
    simp at hl
  · cases hthru : claim.thru_date with
    | none =>
      rw [(process_err ref claim opsf mues (Or.inr hthru)).1] at hl
      simp at hl
    | some thru =>
      rw [(process_ok ref claim opsf mues thru hval hthru).1] at hl
      refine aggregate_nonpayable claim.lines
        (preAggLines ref claim opsf mues thru) ?_ ?_ l hl hns
      · intro g hg
        exact (preAggLines_inv ref claim opsf mues thru g hg).2.2.2.2.1
      · intro g hg
        obtain ⟨h1, h2, h3, _⟩ := preAggLines_inv ref claim opsf mues thru g hg
        exact ⟨h1, h2, h3⟩

/-- Witness for `claim10_nonpayable_zeroed`: the single denied (indicator C5)
line of the concrete BB claim carries no money. -/
theorem claim10_nonpayable_zeroed_witness :
    ((process bbRef bbClaim none []).lines.headI.adjusted_rate = 0 ∧
      (process bbRef bbClaim none []).lines.headI.line_payment = 0 ∧
      (process bbRef bbClaim none []).lines.headI.line_copayment = 0 ∧
      (process bbRef bbClaim none []).lines.headI.line_total = 0) :=
  claim10_nonpayable_zeroed bbRef bbClaim none []
    ((process bbRef bbClaim none []).lines.headI)
    (by with_unfolding_all decide) (by with_unfolding_all decide)

/-!
## C9 — the status vocabulary
-/

/-- C9, counterexample: a line whose HCPCS is missing from the fee schedule
leaves `_process_line` with the pydantic default `status = ""`, which is none
of the four claimed values. -/
theorem claim9_counterexample :
    (process centRef missClaim none []).lines.headI.status = "" ∧
    "" ∉ ["payable", "denied", "unprocessable", "packaged"] ∧
    (process centRef missClaim none []).lines ≠ [] := by
  refine ⟨by with_unfolding_all rfl, by decide, by with_unfolding_all decide⟩

/-- C9 (amended): every output line's status is one of "payable", "denied",
"unprocessable", "packaged", or the empty string — the empty string occurring
exactly for lines whose HCPCS is not found in the fee schedule. -/
theorem claim9_status_vocabulary (ref : AscRefData) (claim : Claim)
    (opsf : Option OPSFProvider) (mues : List (String × AscMueLimit)) :
    ∀ l ∈ (process ref claim opsf mues).lines,
      (l.status = "payable" ∨ l.status = "denied" ∨ l.status = "unprocessable" ∨
        l.status = "packaged" ∨ l.status = "") ∧
      (l.status = "" ↔ alistGet ref.rates l.hcpcs = none) := by
  intro l hl
  by_cases hval : opsf = none ∧ alistGet claim.additional_data "cbsa" = none
  · rw [(process_err ref claim opsf mues (Or.inl hval)).1] at hl
    simp at hl
  · cases hthru : claim.thru_date with
    | none =>
      rw [(process_err ref claim opsf mues (Or.inr hthru)).1] at hl
      simp at hl
    | some thru =>
      rw [(process_ok ref claim opsf mues thru hval hthru).1] at hl
      refine aggregate_preserves_status claim.lines
        (preAggLines ref claim opsf mues thru)
        (fun s hc =>
          (s = "payable" ∨ s = "denied" ∨ s = "unprocessable" ∨
            s = "packaged" ∨ s = "") ∧
          (s = "" ↔ alistGet ref.rates hc = none)) ?_ l hl
      intro g hg
      obtain ⟨_, _, _, h5, _, hiff⟩ := preAggLines_inv ref claim opsf mues thru g hg
      exact ⟨by tauto, hiff⟩

/-- Witness for `claim9_status_vocabulary`: the code-not-found line of the
concrete claim. -/
theorem claim9_status_vocabulary_witness :
    (((process centRef missClaim none []).lines.headI.status = "payable" ∨
      (process centRef missClaim none []).lines.headI.status = "denied" ∨
      (process centRef missClaim none []).lines.headI.status = "unprocessable" ∨
      (process centRef missClaim none []).lines.headI.status = "packaged" ∨
      (process centRef missClaim none []).lines.headI.status = "") ∧
      ((process centRef missClaim none []).lines.headI.status = "" ↔
        alistGet centRef.rates
          ((process centRef missClaim none []).lines.headI.hcpcs) = none)) :=
  claim9_status_vocabulary centRef missClaim none []
    ((process centRef missClaim none []).lines.headI)
    (by with_unfolding_all decide)

/-!
## C3 / C4 — device-offset scenarios (the repository's own tests expect the
offset applied after wage adjustment; `_process_line` applies it to the base
rate before wage adjustment)
-/

/-- Bundle matching the repository's device-offset test fixture
(tests/pricers/test_asc_device_offsets.py): HCPCS 10001 at $100, payment
indicator A2, subject to discount, $20 device offset, wage index 1.5 for
CBSA 10000. -/
def devRef : AscRefData :=
  { rates := [("10001",
      { rate := 100, indicator := "A2", subject_to_discount := true,
        addendum := "AA" })]
    device_offsets := [("10001", 20)]
    wage_indices := [("10000", 1.5)]
    code_pairs := [] }

/-- Line billing HCPCS 10001 with modifier FB and charges high enough never
to be the lower-of. -/
def fbLine : LineItem :=
  { hcpcs := "10001", units := 1, modifiers := ["FB"], charges := 9999,
    service_date := none }

/-- The FB claim of the device-offset tests. -/
def fbClaim : Claim :=
  { thru_date := some ⟨2025, 1, 15⟩, additional_data := [("cbsa", "10000")],
    lines := [fbLine] }

/-- Same line with modifier 73 instead of FB. -/
def m73Line : LineItem :=
  { hcpcs := "10001", units := 1, modifiers := ["73"], charges := 9999,
    service_date := none }

/-- The modifier-73 claim. -/
def m73Claim : Claim :=
  { thru_date := some ⟨2025, 1, 15⟩, additional_data := [("cbsa", "10000")],
    lines := [m73Line] }

/-- C3 (code evaluated at the failing input): with rate $100, wage index
1.5, modifier FB and a $20 offset, the code subtracts the offset from the
base rate before wage adjustment — (100−20) → 0.5·80·1.5 + 0.5·80 — and
prices the line at 100.00, not the 105.00 (= 125 − 20) that the claim, the
spec scenario, and the repository's own test
`test_fb_applies_full_device_offset` state. -/
theorem claim3_code_divergence :
    (process devRef fbClaim none []).lines.headI.adjusted_rate = 100 ∧
    (process devRef fbClaim none []).lines.headI.adjusted_rate ≠ 105 ∧
    (process devRef fbClaim none []).lines.headI.device_offset_amount = 20 ∧
    (process devRef fbClaim none []).lines.headI.device_credit = true ∧
    (process devRef fbClaim none []).lines ≠ [] := by
  refine ⟨by with_unfolding_all rfl, by with_unfolding_all decide,
    by with_unfolding_all rfl, by with_unfolding_all rfl,
    by with_unfolding_all decide⟩

/-- C4 (code evaluated at the failing input): with rate $100, wage index
1.5, modifier 73 and a $20 offset, the code computes ((100−20) wage-adjusted
= 100) × 0.5 = 50.00, not the claimed 52.50 (= (125−20) × 0.5); the
discount-ineligibility part of the claim does hold. -/
theorem claim4_code_divergence :
    (process devRef m73Claim none []).lines.headI.adjusted_rate = 50 ∧
    (process devRef m73Claim none []).lines.headI.adjusted_rate ≠ (52.5 : ℚ) ∧
    (process devRef m73Claim none []).lines.headI.subject_to_discount = false ∧
    (process devRef m73Claim none []).lines.headI.device_offset_amount = 20 ∧
    (process devRef m73Claim none []).lines ≠ [] := by
  refine ⟨by with_unfolding_all rfl, by with_unfolding_all decide,
    by with_unfolding_all rfl, by with_unfolding_all rfl,
    by with_unfolding_all decide⟩

/-!
## C5 — MUE date-of-service greedy fill
-/

/-- Bundle with a single payable $100 surgical code. -/
def mueRef : AscRefData :=
  { rates := [("30001",
      { rate := 100, indicator := "A2", subject_to_discount := true,
        addendum := "AA" })]
    device_offsets := []
    wage_indices := []
    code_pairs := [] }

/-- Three lines of HCPCS 30001 on the same service date billing 2, 3, and 1
units. -/
def dosLines : List LineItem :=
  [{ hcpcs := "30001", units := 2, modifiers := [], charges := 9999,
      service_date := some ⟨2025, 1, 10⟩ },
   { hcpcs := "30001", units := 3, modifiers := [], charges := 9999,
      service_date := some ⟨2025, 1, 10⟩ },
   { hcpcs := "30001", units := 1, modifiers := [], charges := 9999,
      service_date := some ⟨2025, 1, 10⟩ }]

/-- The candidate outputs for those lines (all payable, rate 100·1.0). -/
def dosCalc : List AscLineOutput :=
  runLines mueRef 1 ⟨2025, 1, 15⟩ dosLines [] 0

/-- Date-of-service MUE rule: limit 4, `up_to_limit = true`. -/
def dosRules : List (String × AscMueLimit) :=
  [("30001", { code := "30001", mue_limit := 4, up_to_limit := true })]

/-- C5: under the date-of-service edit with limit 4 and billed units
[2, 3, 1] in claim order, the first line is untouched (budget 4→2), the
second is capped at the remaining 2 units with a partial-cap reason, and the
third is denied with rate, units, and all three money fields zeroed —
resulting units [2, 2, 0]. -/
theorem claim5_mue_dos_greedy :
    ((mueCheck dosLines dosCalc dosRules).map AscLineOutput.units =
      [2, 2, 0]) ∧
    ((mueCheck dosLines dosCalc dosRules).map AscLineOutput.status =
      ["payable", "payable", "denied"]) ∧
    ((mueCheck dosLines dosCalc dosRules).map AscLineOutput.adjusted_rate =
      [100, 100, 0]) ∧
    ((mueCheck dosLines dosCalc dosRules).map AscLineOutput.line_payment =
      [0, 0, 0]) ∧
    ((mueCheck dosLines dosCalc dosRules).map AscLineOutput.line_copayment =
      [0, 0, 0]) ∧
    ((mueCheck dosLines dosCalc dosRules).map AscLineOutput.line_total =
      [0, 0, 0]) ∧
    ((mueCheck dosLines dosCalc dosRules).map AscLineOutput.status_reason =
      ["", "MUE partial: 3 units billed, 2 allowed (limit 4)",
        "MUE exceeded: 6 units billed, limit is 4 (excess denied)"]) ∧
    (mueCheck dosLines dosCalc dosRules).headI = dosCalc.headI := by
  refine ⟨by with_unfolding_all rfl, by with_unfolding_all rfl,
    by with_unfolding_all rfl, by with_unfolding_all rfl,
    by with_unfolding_all rfl, by with_unfolding_all rfl,
    by with_unfolding_all rfl, by with_unfolding_all rfl⟩

/-!
## C6 — MUE line edit denies the whole group
-/

/-- With distinct line numbers, `find?` on the line number of a member
returns exactly that member. -/
theorem find?_line_number_nodup :
    ∀ (l : List AscLineOutput) (g : AscLineOutput),
      (l.map AscLineOutput.line_number).Nodup → g ∈ l →
      l.find? (fun h => decide (h.line_number = g.line_number)) = some g := by
  intro l
  induction l with
  | nil => intro g _ hg; cases hg
  | cons x xs ih =>
    intro g hnd hg
    rw [List.map_cons, List.nodup_cons] at hnd
    rcases List.mem_cons.mp hg with rfl | hg'
    · exact List.find?_cons_of_pos _ (by simp)
    · have hne : ¬ x.line_number = g.line_number := by
        intro he
        exact hnd.1 (he ▸ List.mem_map_of_mem AscLineOutput.line_number hg')
      rw [List.find?_cons_of_neg _ (by simpa using hne)]
      exact ih g hnd.2 hg'

/-- Group membership is symmetric: the group recomputed from any member is
the group itself. -/
theorem mueMembers_congr (cl : List LineItem) (cs : List AscLineOutput)
    (g m : AscLineOutput) (hm : m ∈ mueMembers cl cs g) :
    mueMembers cl cs m = mueMembers cl cs g := by
  obtain ⟨-, -, hh, hs⟩ := mueMembers_mem cl cs g m hm
  unfold mueMembers
  apply List.filter_congr
  intro h _
  rw [hh, hs]

/-- C6: if a line-edit MUE rule (`up_to_limit = false`) applies to a
currently-payable line `g` and the billed units summed over its
(HCPCS, service-date) group of currently-payable lines exceed the limit,
then every member of the group comes out of `_mue_check` denied, with
adjusted rate, units, and all three money fields zeroed and a status reason
stating the billed total and the limit; lines not currently payable are not
mutated (and, by construction of `mueGroupTotal`/`mueMembers`, contribute
nothing to the unit sum). -/
theorem claim6_mue_line_edit (cl : List LineItem) (cs : List AscLineOutput)
    (mues : List (String × AscMueLimit)) (g : AscLineOutput)
    (mue : AscMueLimit)
    (hnodup : (cs.map AscLineOutput.line_number).Nodup)
    (hg : g ∈ cs) (hpay : g.status = "payable")
    (hrule : alistGet mues g.hcpcs = some mue)
    (hmode : mue.up_to_limit = false)
    (hexceed : mue.mue_limit < mueGroupTotal cl (mueMembers cl cs g)) :
    (∀ m ∈ mueMembers cl cs g,
      mueDeny (mueGroupTotal cl (mueMembers cl cs g)) mue.mue_limit
        " (all units denied)" m ∈ mueCheck cl cs mues) ∧
    (∀ (t lim : Int) (m : AscLineOutput),
      (mueDeny t lim " (all units denied)" m).status = "denied" ∧
      (mueDeny t lim " (all units denied)" m).adjusted_rate = 0 ∧
      (mueDeny t lim " (all units denied)" m).units = 0 ∧
      (mueDeny t lim " (all units denied)" m).line_payment = 0 ∧
      (mueDeny t lim " (all units denied)" m).line_copayment = 0 ∧
      (mueDeny t lim " (all units denied)" m).line_total = 0 ∧
      (mueDeny t lim " (all units denied)" m).status_reason =
        "MUE exceeded: " ++ toString t ++ " units billed, limit is " ++
          toString lim ++ " (all units denied)") ∧
    (∀ h ∈ cs, h.status ≠ "payable" → mueLineStep cl cs mues h = h) := by
  have hmues : ¬ mues = [] := by
    intro he
    rw [he] at hrule
    exact Option.noConfusion hrule
  refine ⟨?_, fun t lim m => ⟨rfl, rfl, rfl, rfl, rfl, rfl, rfl⟩,
    fun h hh hnp => mueLineStep_untouched cl cs mues h hnp⟩
  intro m hm
  obtain ⟨hmc, hmp, hmh, -⟩ := mueMembers_mem cl cs g m hm
  have halist' : alistGet mues m.hcpcs = some mue := by
    rw [hmh]
    exact hrule
  have hstep : mueLineStep cl cs mues m =
      ((mueGroupEdit cl mue (mueMembers cl cs m)).find?
        fun h => decide (h.line_number = m.line_number)).getD m := by
    have hbranch : mueLineStep cl cs mues m =
        if m.status = "payable" then
          ((mueGroupEdit cl mue (mueMembers cl cs m)).find?
            fun h => decide (h.line_number = m.line_number)).getD m
        else m := by
      unfold mueLineStep
      rw [halist']
    rw [hbranch, if_pos hmp]
  have hmembers : mueMembers cl cs m = mueMembers cl cs g :=
    mueMembers_congr cl cs g m hm
  have hedit : mueGroupEdit cl mue (mueMembers cl cs g) =
      (mueMembers cl cs g).map
        (mueDeny (mueGroupTotal cl (mueMembers cl cs g)) mue.mue_limit
          " (all units denied)") := by
    unfold mueGroupEdit
    rw [if_neg (not_le.mpr hexceed), if_pos hmode]
  have hndmembers : ((mueMembers cl cs g).map AscLineOutput.line_number).Nodup := by
    refine hnodup.sublist ?_
    exact (List.filter_sublist cs).map AscLineOutput.line_number
  have hcomp : ((fun h : AscLineOutput => decide (h.line_number = m.line_number)) ∘
      (mueDeny (mueGroupTotal cl (mueMembers cl cs g)) mue.mue_limit
        " (all units denied)")) =
      fun h : AscLineOutput => decide (h.line_number = m.line_number) := by
    funext h
    rfl
  have hfound : mueLineStep cl cs mues m =
      mueDeny (mueGroupTotal cl (mueMembers cl cs g)) mue.mue_limit
        " (all units denied)" m := by
    rw [hstep, hmembers, hedit, List.find?_map, hcomp,
      find?_line_number_nodup (mueMembers cl cs g) m hndmembers hm]
    rfl
  have hmc' : mueLineStep cl cs mues m ∈ mueCheck cl cs mues := by
    unfold mueCheck
    rw [if_neg hmues]
    exact List.mem_map_of_mem _ hmc
  rw [← hfound]
  exact hmc'

/-- Line-edit MUE rule for the same code: limit 4, `up_to_limit = false`. -/
def lineEditRules : List (String × AscMueLimit) :=
  [("30001", { code := "30001", mue_limit := 4, up_to_limit := false })]

/-- Witness for `claim6_mue_line_edit`: the concrete three-line group of
`dosCalc` (billed units 2+3+1 = 6 > 4) has its first line's denial in the
MUE output. -/
theorem claim6_mue_line_edit_witness :
    mueDeny (mueGroupTotal dosLines (mueMembers dosLines dosCalc dosCalc.headI))
      (4 : Int) " (all units denied)" dosCalc.headI ∈
      mueCheck dosLines dosCalc lineEditRules :=
  (claim6_mue_line_edit dosLines dosCalc lineEditRules dosCalc.headI
    { code := "30001", mue_limit := 4, up_to_limit := false }
    (by with_unfolding_all decide) (by with_unfolding_all decide)
    (by with_unfolding_all rfl) (by with_unfolding_all rfl) rfl
    (by with_unfolding_all decide)).1 dosCalc.headI
    (by with_unfolding_all decide)

/-!
## C8 — ancillary gate
-/

/-- Every post-MUE line's HCPCS is the HCPCS of some claim line. -/
theorem afterMue_hcpcs (ref : AscRefData) (w : ℚ) (cd : PyDate)
    (cl lines : List LineItem) (dev : List (String × Int))
    (mues : List (String × AscMueLimit)) :
    ∀ h' ∈ mueCheck cl (runLines ref w cd lines dev 0) mues,
      ∃ li ∈ lines, h'.hcpcs = li.hcpcs := by
  refine mueCheck_invariant cl (runLines ref w cd lines dev 0) mues _ ?_ ?_ ?_
  · intro g hg
    obtain ⟨li, hli, dev', idx', rfl⟩ := runLines_mem hg
    exact ⟨li, hli, (processLine_fields ref w cd dev' idx' li).2.1⟩
  · intro m hm _ t lim s
    obtain ⟨li, hli, dev', idx', heq⟩ := runLines_mem hm
    refine ⟨li, hli, ?_⟩
    have hmh : m.hcpcs = li.hcpcs := by
      rw [heq]
      exact (processLine_fields ref w cd dev' idx' li).2.1
    exact hmh
  · intro m hm _ b r lim
    obtain ⟨li, hli, dev', idx', heq⟩ := runLines_mem hm
    refine ⟨li, hli, ?_⟩
    have hmh : m.hcpcs = li.hcpcs := by
      rw [heq]
      exact (processLine_fields ref w cd dev' idx' li).2.1
    exact hmh

theorem ndApply_total_zero (cl : List LineItem) :
    ∀ (l : List AscLineOutput), (∀ g ∈ l, g.status ≠ "payable") →
      (ndApply cl l).2 = 0 := by
  intro l
  induction l with
  | nil => intro _; rfl
  | cons g gs ih =>
    intro h
    rw [ndApply_cons, if_neg (h g (List.mem_cons_self g gs))]
    exact ih fun x hx => h x (List.mem_cons_of_mem g hx)

/-- A line set with no payable line and all-zero adjusted rates sums to a
zero claim total. -/
theorem aggregate_total_zero (cl : List LineItem) (cs : List AscLineOutput)
    (hnp : ∀ g ∈ cs, g.status ≠ "payable")
    (hrz : ∀ g ∈ cs, g.adjusted_rate = 0) :
    (aggregate cl cs).2 = 0 := by
  rw [aggregate_eq]
  have hpool : cs.filter
      (fun g => g.subject_to_discount && decide (0 < g.adjusted_rate)) = [] := by
    rw [List.filter_eq_nil_iff]
    intro a ha
    simp only [Bool.and_eq_true, decide_eq_true_eq, not_and]
    intro _
    rw [hrz a ha]
    exact lt_irrefl 0
  rw [hpool]
  have hnd := ndApply_total_zero cl
    (cs.filter fun g => !g.subject_to_discount || decide (g.adjusted_rate ≤ 0))
    (fun g hg => hnp g (List.mem_filter.mp hg).1)
  simp only [sortByEffRateDesc, stableSort, mprApply, hnd]
  exact zero_add 0

/-- When every currently-payable line is an addendum-"BB" ancillary, no line
survives the gate as payable. -/
theorem gate_no_payable (rates : List (String × RateInfo))
    (lines : List AscLineOutput)
    (hbbs : ∀ h ∈ lines, h.status = "payable" →
      (alistGet rates h.hcpcs).map RateInfo.addendum = some "BB") :
    ∀ l ∈ ancillaryGate rates lines, l.status ≠ "payable" := by
  have hsurg : hasPayableSurgical rates lines = false := by
    unfold hasPayableSurgical
    rw [List.any_eq_false]
    intro x hx
    simp only [decide_eq_true_eq, not_and]
    intro hpx
    obtain ⟨info, hinfo, haddend⟩ := Option.map_eq_some'.mp (hbbs x hx hpx)
    have hval : addendumOrAA rates x.hcpcs = info.addendum := by
      unfold addendumOrAA
      rw [hinfo]
    rw [hval, haddend]
    decide
  intro l hl
  unfold ancillaryGate at hl
  rw [if_neg (by rw [hsurg]; exact Bool.false_ne_true)] at hl
  obtain ⟨h0, hh0, heq⟩ := List.mem_map.mp hl
  by_cases hc : (alistGet rates h0.hcpcs).map RateInfo.addendum = some "BB" ∧
      h0.status = "payable"
  · rw [if_pos hc] at heq
    rw [← heq]
    intro hcon
    simp [gateDowngrade] at hcon
  · rw [if_neg hc] at heq
    rw [← heq]
    intro hpl
    exact hc ⟨hbbs h0 hh0 hpl, hpl⟩

/-- C8 (amended): the gate semantics — when no currently-payable line counts
as surgical, every currently-payable addendum-"BB" line is downgraded to
unprocessable with the §60.2 reason and a zeroed adjusted rate — and the
claim-level consequence: a claim containing only addendum-"BB" lines ends
with no payable line at all (lines payable after MUE end unprocessable;
lines already denied or packaged keep those statuses) and with
`total = total_payment = 0`. -/
theorem claim8_ancillary_gate (ref : AscRefData) (claim : Claim)
    (opsf : Option OPSFProvider) (mues : List (String × AscMueLimit))
    (hbb : ∀ li ∈ claim.lines,
      (alistGet ref.rates li.hcpcs).map RateInfo.addendum = some "BB") :
    (∀ (lines : List AscLineOutput),
      hasPayableSurgical ref.rates lines = false →
      ∀ g ∈ lines, g.status = "payable" →
        (alistGet ref.rates g.hcpcs).map RateInfo.addendum = some "BB" →
        gateDowngrade g ∈ ancillaryGate ref.rates lines) ∧
    (∀ g : AscLineOutput, (gateDowngrade g).status = "unprocessable" ∧
      (gateDowngrade g).adjusted_rate = 0 ∧
      (gateDowngrade g).status_reason =
        "No related surgical procedure on claim (CMS §60.2)") ∧
    (∀ l ∈ (process ref claim opsf mues).lines, l.status ≠ "payable") ∧
    (process ref claim opsf mues).total = 0 ∧
    (process ref claim opsf mues).total_payment = 0 := by
  refine ⟨fun lines hno g hg hpay hb =>
      ancillaryGate_downgrades ref.rates lines hno g hg hpay hb,
    fun g => ⟨rfl, rfl, rfl⟩, ?_⟩
  by_cases hval : opsf = none ∧ alistGet claim.additional_data "cbsa" = none
  · obtain ⟨hl, hp, _, ht⟩ := process_err ref claim opsf mues (Or.inl hval)
    rw [hl, hp, ht]
    exact ⟨by simp, rfl, rfl⟩
  · cases hthru : claim.thru_date with
    | none =>
      obtain ⟨hl, hp, _, ht⟩ := process_err ref claim opsf mues (Or.inr hthru)
      rw [hl, hp, ht]
      exact ⟨by simp, rfl, rfl⟩
    | some thru =>
      have hbbs : ∀ h ∈ mueCheck claim.lines
          (runLines ref (resolvedWageIndex ref claim opsf) thru claim.lines
            (buildDeviceUnits ref.code_pairs claim.lines) 0) mues,
          h.status = "payable" →
          (alistGet ref.rates h.hcpcs).map RateInfo.addendum = some "BB" := by
        intro h hh _
        obtain ⟨li, hli, hhc⟩ := afterMue_hcpcs ref
          (resolvedWageIndex ref claim opsf) thru claim.lines claim.lines
          (buildDeviceUnits ref.code_pairs claim.lines) mues h hh
        rw [hhc]
        exact hbb li hli
      have hnp : ∀ l ∈ preAggLines ref claim opsf mues thru,
          l.status ≠ "payable" := by
        unfold preAggLines
        exact gate_no_payable ref.rates _ hbbs
      have hrz : ∀ l ∈ preAggLines ref claim opsf mues thru,
          l.adjusted_rate = 0 := by
        intro l hl
        exact (preAggLines_inv ref claim opsf mues thru l hl).2.2.2.2.1 (hnp l hl)
      have htz : (aggregate claim.lines (preAggLines ref claim opsf mues thru)).2 = 0 :=
        aggregate_total_zero claim.lines _ hnp hrz
      obtain ⟨hl, ht, hp, _, _⟩ := process_ok ref claim opsf mues thru hval hthru
      refine ⟨?_, ?_, ?_⟩
      · rw [hl]
        exact aggregate_preserves_status claim.lines _
          (fun s _ => s ≠ "payable") (fun g hg => hnp g hg)
      · rw [ht, htz]
      · rw [hp, htz]
        with_unfolding_all rfl

/-- C8, counterexample: a claim whose only line is an addendum-"BB" code
with denial indicator C5 ends with that line denied, not unprocessable —
refuting "a claim containing only addendum-BB lines ends with every BB line
unprocessable" as literally stated (total_payment = 0 does hold). -/
theorem claim8_counterexample :
    (process bbRef bbClaim none []).lines.headI.status = "denied" ∧
    (process bbRef bbClaim none []).lines.headI.status ≠ "unprocessable" ∧
    (alistGet bbRef.rates bbLine.hcpcs).map RateInfo.addendum = some "BB" ∧
    (process bbRef bbClaim none []).lines ≠ [] := by
  refine ⟨by with_unfolding_all rfl, by with_unfolding_all decide,
    by with_unfolding_all rfl, by with_unfolding_all decide⟩

/-- Bundle whose only code is a payable addendum-"BB" ancillary. -/
def bbPayRef : AscRefData :=
  { rates := [("40002",
      { rate := 100, indicator := "A2", subject_to_discount := true,
        addendum := "BB" })]
    device_offsets := []
    wage_indices := []
    code_pairs := [] }

/-- Line billing one unit of that payable BB code. -/
def bbPayLine : LineItem :=
  { hcpcs := "40002", units := 1, modifiers := [], charges := 500,
    service_date := none }

/-- Claim with only that payable BB line. -/
def bbPayClaim : Claim :=
  { thru_date := some ⟨2025, 1, 15⟩, additional_data := [("cbsa", "10000")],
    lines := [bbPayLine] }

/-- Witness for `claim8_ancillary_gate` at the concrete all-BB claim. -/
theorem claim8_ancillary_gate_witness :
    (process bbPayRef bbPayClaim none []).total_payment = 0 ∧
    (process bbPayRef bbPayClaim none []).total = 0 :=
  ⟨(claim8_ancillary_gate bbPayRef bbPayClaim none []
      (by with_unfolding_all decide)).2.2.2.2,
    (claim8_ancillary_gate bbPayRef bbPayClaim none []
      (by with_unfolding_all decide)).2.2.2.1⟩

/-!
## C7 — multiple-procedure-reduction ranking and discounting
-/

theorem mprUnits_pos (cl : List LineItem) (g : AscLineOutput) :
    0 < mprUnits cl g := by
  unfold mprUnits
  by_cases h : 0 < g.units
  · rw [if_pos h]
    exact h
  · rw [if_neg h]
    exact lt_of_lt_of_le zero_lt_one (le_max_left 1 _)

theorem effRateUnitCount_eq_mprUnits (cl : List LineItem) (g : AscLineOutput) :
    effRateUnitCount cl g = mprUnits cl g := by
  unfold effRateUnitCount mprUnits
  by_cases h : 0 < g.units
  · rw [if_pos h, if_pos h]
  · rw [if_neg h, if_neg h]
    by_cases h0 : (lineAt cl g.line_number).units = 0
    · rw [if_neg (by simp [h0]), h0]
      rw [if_pos rfl]
      rfl
    · by_cases h1 : 1 ≤ (lineAt cl g.line_number).units
      · rw [if_pos ⟨h0, h1⟩, if_neg h0]
      · rw [if_neg (by intro hc; exact h1 hc.2), if_neg h0]
        rw [max_eq_left (by omega : (lineAt cl g.line_number).units ≤ 1)]

/-- Effective rate of a summation-loop output equals the effective rate of
its input line: the adjusted rate, line number, and resolved unit count are
unchanged by the payment assignment. -/
theorem effectiveRate_of_mpr (cl : List LineItem) (g g' : AscLineOutput)
    (hln : g'.line_number = g.line_number)
    (hr : g'.adjusted_rate = g.adjusted_rate)
    (hu : g'.units = mprUnits cl g) :
    effectiveRate cl g' = effectiveRate cl g := by
  have hcount' : effRateUnitCount cl g' = mprUnits cl g := by
    unfold effRateUnitCount
    rw [hu]
    rw [if_pos (mprUnits_pos cl g)]
  have hcount : effRateUnitCount cl g = mprUnits cl g :=
    effRateUnitCount_eq_mprUnits cl g
  unfold effectiveRate
  rw [hln, hr, hcount', hcount]

theorem effectiveRate_mprFirst (cl : List LineItem) (g : AscLineOutput) :
    effectiveRate cl (mprFirst cl g).1 = effectiveRate cl g :=
  effectiveRate_of_mpr cl g _ rfl rfl rfl

theorem effectiveRate_mprRest (cl : List LineItem) (g : AscLineOutput) :
    effectiveRate cl (mprRest cl g).1 = effectiveRate cl g :=
  effectiveRate_of_mpr cl g _ rfl rfl rfl

/-- Payment formula of a subsequently-ranked discount line, in terms of the
output line's own fields. -/
theorem mprRest_total (cl : List LineItem) (g : AscLineOutput) :
    (mprRest cl g).1.line_total =
      quantizeCents (effectiveRate cl (mprRest cl g).1 * (0.5 : ℚ) *
        (((mprRest cl g).1.units : Int) : ℚ)) := by
  rw [effectiveRate_mprRest]
  rfl

/-- Payment formula of the first-ranked discount line, in terms of the
output line's own fields. -/
theorem mprFirst_total (cl : List LineItem) (g : AscLineOutput) :
    (mprFirst cl g).1.line_total =
      if 1 < (mprFirst cl g).1.units then
        quantizeCents (effectiveRate cl (mprFirst cl g).1 +
          effectiveRate cl (mprFirst cl g).1 * (0.5 : ℚ) *
            ((((mprFirst cl g).1.units - 1 : Int)) : ℚ))
      else quantizeCents (effectiveRate cl (mprFirst cl g).1) := by
  rw [effectiveRate_mprFirst]
  have hu : (mprFirst cl g).1.units = mprUnits cl g := rfl
  rw [hu]
  by_cases h : 1 < mprUnits cl g
  · rw [if_pos h]
    show quantizeCents (if 1 < mprUnits cl g then
        effectiveRate cl g + effectiveRate cl g * (0.5 : ℚ) *
          ((mprUnits cl g - 1 : Int) : ℚ)
      else effectiveRate cl g) = _
    rw [if_pos h]
  · rw [if_neg h]
    show quantizeCents (if 1 < mprUnits cl g then
        effectiveRate cl g + effectiveRate cl g * (0.5 : ℚ) *
          ((mprUnits cl g - 1 : Int) : ℚ)
      else effectiveRate cl g) = _
    rw [if_neg h]

/-- The non-discount pool predicate excludes the discount pool. -/
theorem poolB_false_of_nd (g : AscLineOutput)
    (h : (!g.subject_to_discount || decide (g.adjusted_rate ≤ 0)) = true) :
    (g.subject_to_discount && decide (0 < g.adjusted_rate)) = false := by
  rcases (by simpa using h : g.subject_to_discount = false ∨ g.adjusted_rate ≤ 0)
      with h' | h'
  · rw [h']
    rfl
  · have hd : decide (0 < g.adjusted_rate) = false := decide_eq_false (not_lt.mpr h')
    rw [hd, Bool.and_false]

/-- C7: in the final output of a priced claim, whenever the discount pool
(the lines with `subject_to_discount` and positive adjusted rate) is
non-empty, exactly one of its lines ends with `discount_applied = false`;
that line has maximal effective rate in the pool and pays 100% of its
effective rate for its first unit plus 50% for every additional unit, while
every other pool line has `discount_applied = true` and pays 50% of its
effective rate for all its units, each line total rounded to the cent. -/
theorem claim7_mpr_ranking (ref : AscRefData) (claim : Claim)
    (opsf : Option OPSFProvider) (mues : List (String × AscMueLimit))
    (hpool : discountPool (process ref claim opsf mues).lines ≠ []) :
    (discountPool (process ref claim opsf mues).lines).countP
      (fun g => !g.discount_applied) = 1 ∧
    (∃ gmax ∈ discountPool (process ref claim opsf mues).lines,
      gmax.discount_applied = false ∧
      ∀ h ∈ discountPool (process ref claim opsf mues).lines,
        effectiveRate claim.lines h ≤ effectiveRate claim.lines gmax) ∧
    (∀ g ∈ discountPool (process ref claim opsf mues).lines,
      g.discount_applied = true →
        g.line_total = quantizeCents (effectiveRate claim.lines g * (0.5 : ℚ) *
          ((g.units : Int) : ℚ))) ∧
    (∀ g ∈ discountPool (process ref claim opsf mues).lines,
      g.discount_applied = false →
        g.line_total =
          if 1 < g.units then
            quantizeCents (effectiveRate claim.lines g +
              effectiveRate claim.lines g * (0.5 : ℚ) * (((g.units - 1 : Int)) : ℚ))
          else quantizeCents (effectiveRate claim.lines g)) := by
  by_cases hval : opsf = none ∧ alistGet claim.additional_data "cbsa" = none
  · rw [(process_err ref claim opsf mues (Or.inl hval)).1] at hpool
    exact absurd rfl hpool
  · cases hthru : claim.thru_date with
    | none =>
      rw [(process_err ref claim opsf mues (Or.inr hthru)).1] at hpool
      exact absurd rfl hpool
    | some thru =>
      have hlines := (process_ok ref claim opsf mues thru hval hthru).1
      rw [hlines] at hpool ⊢
      set cl := claim.lines with hcl
      set pre := preAggLines ref claim opsf mues thru with hpre
      set D := pre.filter
        (fun g => g.subject_to_discount && decide (0 < g.adjusted_rate)) with hD
      set ND := pre.filter
        (fun g => !g.subject_to_discount || decide (g.adjusted_rate ≤ 0)) with hND
      set S := sortByEffRateDesc cl D with hS
      -- the final list is a permutation of the two processed pools
      have hagg : (aggregate cl pre).1 =
          sortByLineNumber ((mprApply cl S).1 ++ (ndApply cl ND).1) := by
        rw [aggregate_eq]
      have hperm : (aggregate cl pre).1.Perm ((mprApply cl S).1 ++ (ndApply cl ND).1) := by
        rw [hagg]
        exact sortByLineNumber_perm _
      -- the final discount pool is a permutation of the processed discount pool
      have hdl_pool : ∀ g' ∈ (mprApply cl S).1,
          (g'.subject_to_discount && decide (0 < g'.adjusted_rate)) = true := by
        intro g' hg'
        obtain ⟨g, hgS, hc⟩ := mprApply_mem cl S g' hg'
        have hgD : g ∈ D := (sortByEffRateDesc_perm cl D).mem_iff.mp hgS
        have hcond := (List.mem_filter.mp hgD).2
        rcases hc with heq | heq <;> rw [heq] <;> exact hcond
      have hnl_pool : ∀ g' ∈ (ndApply cl ND).1,
          (g'.subject_to_discount && decide (0 < g'.adjusted_rate)) = false := by
        intro g' hg'
        obtain ⟨g, hgN, hc⟩ := ndApply_mem cl ND g' hg'
        have hcond := (List.mem_filter.mp hgN).2
        rcases hc with heq | ⟨_, heq⟩ <;> rw [heq] <;> exact poolB_false_of_nd g hcond
      have hpoolperm : (discountPool (aggregate cl pre).1).Perm (mprApply cl S).1 := by
        unfold discountPool
        have h1 := hperm.filter
          (fun g => g.subject_to_discount && decide (0 < g.adjusted_rate))
        have hself : ((mprApply cl S).1.filter
            (fun g => g.subject_to_discount && decide (0 < g.adjusted_rate))) =
            (mprApply cl S).1 := List.filter_eq_self.mpr hdl_pool
        have hnil : ((ndApply cl ND).1.filter
            (fun g => g.subject_to_discount && decide (0 < g.adjusted_rate))) =
            [] := by
          rw [List.filter_eq_nil_iff]
          intro a ha
          rw [hnl_pool a ha]
          decide
        rw [List.filter_append, hself, hnil, List.append_nil] at h1
        exact h1
      -- the sorted pool is non-empty
      cases hScases : S with
      | nil =>
        rw [hScases] at hpoolperm
        have : discountPool (aggregate cl pre).1 = [] := hpoolperm.eq_nil
        exact absurd this hpool
      | cons s ss =>
        have hdl_eq : (mprApply cl S).1 =
            (mprFirst cl s).1 :: (mprRestFold cl ss).1 := by
          rw [hScases]
          rfl
        have hrest_applied : ∀ g' ∈ (mprRestFold cl ss).1,
            g'.discount_applied = true := by
          intro g' hg'
          obtain ⟨g, _, heq⟩ := mprRestFold_mem cl ss g' hg'
          rw [heq]
          rfl
        -- sortedness: the head dominates every sorted element
        have hsorted := sortByEffRateDesc_pairwise cl D
        rw [← hS, hScases] at hsorted
        have hhead_max : ∀ g ∈ S, effectiveRate cl g ≤ effectiveRate cl s := by
          intro g hgS
          rw [hScases] at hgS
          rcases List.mem_cons.mp hgS with rfl | hgss
          · exact le_refl _
          · exact (List.pairwise_cons.mp hsorted).1 g hgss
        refine ⟨?_, ?_, ?_, ?_⟩
        · -- exactly one line with discount_applied = false
          rw [hpoolperm.countP_eq, hdl_eq, List.countP_cons]
          have hz : (mprRestFold cl ss).1.countP (fun g => !g.discount_applied) = 0 := by
            rw [List.countP_eq_zero]
            intro g' hg'
            rw [hrest_applied g' hg']
            decide
          rw [hz]
          rfl
        · -- the head is a pool member of maximal effective rate
          refine ⟨(mprFirst cl s).1, ?_, rfl, ?_⟩
          · apply hpoolperm.mem_iff.mpr
            rw [hdl_eq]
            exact List.mem_cons_self _ _
          · intro h hh
            have hhdl : h ∈ (mprApply cl S).1 := hpoolperm.mem_iff.mp hh
            obtain ⟨g, hgS, hc⟩ := mprApply_mem cl S h hhdl
            have heff : effectiveRate cl h = effectiveRate cl g := by
              rcases hc with heq | heq <;> rw [heq]
              · exact effectiveRate_mprFirst cl g
              · exact effectiveRate_mprRest cl g
            rw [heff, effectiveRate_mprFirst]
            exact hhead_max g hgS
        · -- 50% schedule for every subsequently-ranked line
          intro g hg happ
          have hgdl : g ∈ (mprApply cl S).1 := hpoolperm.mem_iff.mp hg
          rw [hdl_eq] at hgdl
          rcases List.mem_cons.mp hgdl with rfl | hgrest
          · have : (mprFirst cl s).1.discount_applied = false := rfl
            rw [this] at happ
            exact Bool.noConfusion happ
          · obtain ⟨g0, _, heq⟩ := mprRestFold_mem cl ss g hgrest
            rw [heq]
            exact mprRest_total cl g0
        · -- 100%-plus-50% schedule for the first-ranked line
          intro g hg happ
          have hgdl : g ∈ (mprApply cl S).1 := hpoolperm.mem_iff.mp hg
          rw [hdl_eq] at hgdl
          rcases List.mem_cons.mp hgdl with rfl | hgrest
          · exact mprFirst_total cl s
          · rw [hrest_applied g hgrest] at happ
            exact Bool.noConfusion happ

/-- Bundle for the discount-pool witness: two subject-to-discount codes at
$100 and $50, wage index 1.5. -/
def discRef : AscRefData :=
  { rates := [("50001",
      { rate := 100, indicator := "A2", subject_to_discount := true,
        addendum := "AA" }),
    ("50002",
      { rate := 50, indicator := "A2", subject_to_discount := true,
        addendum := "AA" })]
    device_offsets := []
    wage_indices := [("10000", 1.5)]
    code_pairs := [] }

/-- Line billing one unit of the $50 code. -/
def discLine1 : LineItem :=
  { hcpcs := "50002", units := 1, modifiers := [], charges := 9999,
    service_date := none }

/-- Line billing two units of the $100 code. -/
def discLine2 : LineItem :=
  { hcpcs := "50001", units := 2, modifiers := [], charges := 9999,
    service_date := none }

/-- Claim with the $50 code first (1 unit) and the $100 code second
(2 units), both with ample charges. -/
def discClaim : Claim :=
  { thru_date := some ⟨2025, 1, 15⟩, additional_data := [("cbsa", "10000")],
    lines := [discLine1, discLine2] }

/-- Witness for `claim7_mpr_ranking` at the concrete two-line discount
claim. -/
theorem claim7_mpr_ranking_witness :
    (discountPool (process discRef discClaim none []).lines).countP
      (fun g => !g.discount_applied) = 1 :=
  (claim7_mpr_ranking discRef discClaim none []
    (by with_unfolding_all decide)).1

end Asc
